import Mathlib

/-!
Verification of the sales-performance normalization and scoring engine.

The development shallowly embeds the two Python conversion/scoring
implementations of the repository:

* `SalesDataConverter` (excel_converter): `safe_convert_numeric`,
  `process_standard_format`, `process_custom_format`, `validate_data`;
* the dashboard (streamlit_app_complete): `convert_excel_to_sales_data`
  (with its inner `safe_get`), `calculate_performance_score`, and the
  category-leader computation.

Modelling conventions:
* Python numbers (int/float) are modelled as exact rationals `ℚ`; the float
  literals 0.50, 0.15, 0.35, 0.6, 0.4 are the rationals 1/2, 3/20, 7/20,
  3/5, 2/5.
* A table cell is a `RawCell`: `absent` covers NaN/None (everything for
  which `pd.isna` is true), `str` a string cell, `num` a numeric cell.
* A row is an association list from column labels to cells; `Row.get`
  models `row.get(key, default)` of a pandas row.
* Python `None`-or-number values are `Option ℚ`; fallible code (code that
  can raise) returns `Except String _`.
* `float(...)`/`int(...)` string parsing is modelled by a plain decimal
  parser (exponent and infinity forms are not modelled; no claim uses
  them), and `str(...)` on a numeric cell by a simplified decimal
  rendering (no claim depends on it).
-/

/-- A raw table cell: `absent` models NaN/None (pd.isna), otherwise a
string or a numeric value. -/
inductive RawCell where
  | absent : RawCell
  | str : String → RawCell
  | num : ℚ → RawCell
deriving DecidableEq, Repr

/-- Substring containment, modelling Python's `sub in s`. -/
def strContains (s sub : String) : Bool :=
  decide (sub.toList <:+: s.toList)

/-- Python `.strip()` / pandas trimming, modelled directly on the
character list: drop whitespace from both ends. -/
def pyStrip (s : String) : String :=
  String.mk
    (((s.data.dropWhile Char.isWhitespace).reverse.dropWhile
      Char.isWhitespace).reverse)

/-- Python `.lower()`, modelled directly on the character list. -/
def pyLower (s : String) : String :=
  String.mk (s.data.map Char.toLower)

/-- The decimal digit character of `d % 10`. -/
def decChar (d : Nat) : Char :=
  match d % 10 with
  | 0 => '0' | 1 => '1' | 2 => '2' | 3 => '3' | 4 => '4'
  | 5 => '5' | 6 => '6' | 7 => '7' | 8 => '8' | _ => '9'


/-- Little-endian decimal digit characters of `n`. -/
def decRevDigits (n : Nat) : List Char :=
  if h : n < 10 then [decChar n]
  else decChar (n % 10) :: decRevDigits (n / 10)
decreasing_by exact Nat.div_lt_self (by omega) (by omega)

/-- Decimal rendering of a natural number, modelling the Python
f-string interpolation of a dataframe index. -/
def pyNatStr (n : Nat) : String :=
  String.mk (decRevDigits n).reverse

/-- Decimal digits to a natural number. -/
def digitsVal (l : List Char) : Nat :=
  l.foldl (fun n c => n * 10 + (c.toNat - 48)) 0

/-- Parse of a (possibly signed) decimal literal, modelling Python
`float(s)` on the string forms the pipeline feeds it (integer and
`intpart.fracpart` forms, optional sign, surrounding whitespace). -/
def parseFloat (s : String) : Option ℚ :=
  let cs := (pyStrip s).toList
  let (neg, rest) :=
    match cs with
    | '-' :: r => (true, r)
    | '+' :: r => (false, r)
    | r => (false, r)
  let intPart := rest.takeWhile Char.isDigit
  let rest2 := rest.dropWhile Char.isDigit
  let mag : Option ℚ :=
    match rest2 with
    | [] => if intPart.isEmpty then none else some (digitsVal intPart : ℚ)
    | '.' :: fracTail =>
      let fracPart := fracTail.takeWhile Char.isDigit
      if ¬ (fracTail.dropWhile Char.isDigit).isEmpty then none
      else if intPart.isEmpty ∧ fracPart.isEmpty then none
      else some ((digitsVal intPart : ℚ) +
        (digitsVal fracPart : ℚ) / ((10 : ℚ) ^ fracPart.length))
    | _ => none
  mag.map (fun q => if neg then -q else q)

/-- Parse of a (possibly signed) integer literal, modelling Python
`int(s)`: sign and digits only (a fractional point is a `ValueError`). -/
def parseIntStr (s : String) : Option ℤ :=
  let cs := (pyStrip s).toList
  let (neg, rest) :=
    match cs with
    | '-' :: r => (true, r)
    | '+' :: r => (false, r)
    | r => (false, r)
  if rest.isEmpty ∨ ¬ rest.all Char.isDigit then none
  else some (if neg then -(digitsVal rest : ℤ) else (digitsVal rest : ℤ))

/-- Truncation toward zero, modelling Python `int(x)` on a number. -/
def pyTrunc (q : ℚ) : ℤ :=
  if 0 ≤ q then ⌊q⌋ else ⌈q⌉

/-- Simplified rendering of a numeric cell, standing in for Python
`str(float)`; no claim exercises this on a non-string cell. -/
def pyNumStr (q : ℚ) : String :=
  if q.den = 1 then toString q.num ++ ".0" else toString q

/-- Python `str(cell)`: NaN prints as `"nan"` (the converter's
missing-name sentinel). -/
def pyStr : RawCell → String
  | RawCell.absent => "nan"
  | RawCell.str s => s
  | RawCell.num q => pyNumStr q

/-- A table row: association list from column labels to cells. -/
def Row : Type := List (String × RawCell)

/-- `row.get(key, default)` of a pandas row: the first entry for `key`,
else the supplied default. -/
def Row.get (r : Row) (key : String) (default : RawCell) : RawCell :=
  match List.find? (fun p => p.1 = key) r with
  | some p => p.2
  | none => default

/-- Insert-or-overwrite of a key, modelling Python dict assignment. -/
def Row.set (r : Row) (key : String) (v : RawCell) : Row :=
  match r with
  | [] => [(key, v)]
  | p :: rest =>
    if p.1 = key then (key, v) :: rest else p :: Row.set rest key v

/-- Per-bucket metrics exactly as both converters store them: the
appointment count and both rates are number-or-None. -/
structure BucketMetrics where
  appointments : Option ℚ
  closeRate : Option ℚ
  captureRate : Option ℚ
deriving DecidableEq, Repr

/-- The canonical normalized record (dict shape of both converters);
`categories` is an ordered association list, like a Python dict. -/
structure RepRecord where
  name : String
  totalAppts : Option ℚ
  overallClose : Option ℚ
  overallCapture : Option ℚ
  categories : List (String × BucketMetrics)
deriving DecidableEq, Repr

/-- The fixed ordered bucket list (`unit_categories` in both files). -/
def unit_categories : List String := ["0-4", "5-9", "10-17", "18-25", "26+"]

/-- True on the values `safe_convert_numeric` treats as "no value" up
front: `pd.isna(value) or value == '-' or value == '' or value is None`. -/
def isNoValueCell : RawCell → Bool
  | RawCell.absent => true
  | RawCell.str s => s = "-" ∨ s = ""
  | RawCell.num _ => false

/-- The "no value" resolution of `safe_convert_numeric`:
`None if is_percentage and default == 0 else default`. -/
def noValueResult (is_percentage : Bool) (default : ℚ) : Option ℚ :=
  if is_percentage ∧ default = 0 then none else some default

/-- The fraction→percent rescale of `safe_convert_numeric`:
`if is_percentage and numeric_val <= 1.0: numeric_val *= 100`. -/
def pctAdjust (is_percentage : Bool) (v : ℚ) : ℚ :=
  if is_percentage ∧ v ≤ 1 then v * 100 else v

/-- Removal of every occurrence of a character, modelling Python
`s.replace(ch, '')` for a single-character pattern. -/
def removeChar (ch : Char) (s : String) : String :=
  String.mk (s.data.filter (fun c => c ≠ ch))

/-- The `%`/`,`-stripping and trim the converter applies to string cells:
`value.replace('%', '').replace(',', '').strip()`. -/
def cleanNumStr (s : String) : String :=
  pyStrip (removeChar ',' (removeChar '%' s))

/-- `SalesDataConverter.safe_convert_numeric`: never raises; returns
number-or-None. -/
def safe_convert_numeric (value : RawCell) (is_percentage : Bool := false)
    (default : ℚ := 0) : Option ℚ :=
  if isNoValueCell value then noValueResult is_percentage default
  else
    match value with
    | RawCell.absent => noValueResult is_percentage default
    | RawCell.str s =>
      let cleaned := cleanNumStr s
      if cleaned = "" ∨ cleaned = "-" then noValueResult is_percentage default
      else
        match parseFloat cleaned with
        | some v => some (pctAdjust is_percentage v)
        | none => noValueResult is_percentage default
    | RawCell.num q => some (pctAdjust is_percentage q)

/-- The record the converter builds for a surviving row
(`process_standard_format`, body of the loop after the name check). -/
def buildStandardRecord (row : Row) (rep_name : String) : RepRecord :=
  { name := rep_name
    totalAppts := safe_convert_numeric (row.get "Issued Appts" (RawCell.num 0))
    overallClose :=
      safe_convert_numeric (row.get "Overall Close %" (RawCell.num 0)) true
    overallCapture :=
      safe_convert_numeric
        (row.get "Units Captured on Sold Jobs %" (RawCell.num 0)) true
    categories := unit_categories.map (fun cat =>
      (cat,
        { appointments :=
            safe_convert_numeric
              (row.get ("(" ++ cat ++ ") Issued Appts") (RawCell.num 0))
          closeRate :=
            safe_convert_numeric
              (row.get ("(" ++ cat ++ ") Overall Close %") RawCell.absent) true
          captureRate :=
            safe_convert_numeric
              (row.get ("(" ++ cat ++ ") Units Captured on Sold Jobs %")
                RawCell.absent) true })) }

/-- The derived rep name of a row at dataframe index `idx`:
`str(row.get('Sales Rep', f'Rep_{idx}')).strip()`. -/
def standardRowName (idx : Nat) (row : Row) : String :=
  pyStrip (pyStr (row.get "Sales Rep" (RawCell.str ("Rep_" ++ pyNatStr idx))))

/-- The converter's skip test: `rep_name == '' or rep_name.lower() == 'nan'`. -/
def nameSkipped (rep_name : String) : Bool :=
  rep_name = "" ∨ pyLower rep_name = "nan"

/-- One iteration of the `process_standard_format` loop: `none` when the
row is skipped by the name check.  (The `try/except` around the loop body
guards against raising cell values; every operation in the body is total
in this model, so the handler path is unreachable.) -/
def processStandardRow (idx : Nat) (row : Row) : Option RepRecord :=
  let rep_name := standardRowName idx row
  if nameSkipped rep_name then none
  else some (buildStandardRecord row rep_name)

/-- `SalesDataConverter.process_standard_format`. -/
def process_standard_format (df : List Row) : List RepRecord :=
  df.enum.filterMap (fun p => processStandardRow p.1 p.2)

/-- The four canonical slots `process_custom_format` may fill
(`column_mapping` dict: only these four keys are ever assigned). -/
structure ColumnMapping where
  salesRep : Option String
  issuedAppts : Option String
  overallClose : Option String
  unitsCaptured : Option String
deriving DecidableEq, Repr

/-- Rep-name keywords of the custom mapper (on the lower-cased label). -/
def labelMatchesName (l : String) : Bool :=
  strContains l "sales rep" || strContains l "rep name" || strContains l "name"

/-- Total-appointments keywords of the custom mapper. -/
def labelMatchesAppts (l : String) : Bool :=
  strContains l "total appt" || strContains l "issued appt" ||
    strContains l "appointments"

/-- Overall-close keywords of the custom mapper. -/
def labelMatchesClose (l : String) : Bool :=
  strContains l "overall close" || strContains l "close rate" ||
    strContains l "close %"

/-- Overall-capture keywords of the custom mapper. -/
def labelMatchesCapture (l : String) : Bool :=
  strContains l "capture" && (strContains l "overall" || strContains l "total")

/-- One iteration of the custom mapper's label loop: the if/elif chain
assigns the label to the first slot whose keywords match, overwriting any
earlier assignment to that slot (dict assignment). -/
def mapColumnStep (m : ColumnMapping) (col : String) : ColumnMapping :=
  let l := pyLower col
  if labelMatchesName l then { m with salesRep := some col }
  else if labelMatchesAppts l then { m with issuedAppts := some col }
  else if labelMatchesClose l then { m with overallClose := some col }
  else if labelMatchesCapture l then { m with unitsCaptured := some col }
  else m

/-- The `column_mapping` loop of `process_custom_format`. -/
def build_column_mapping (columns : List String) : ColumnMapping :=
  columns.foldl mapColumnStep
    { salesRep := none, issuedAppts := none, overallClose := none,
      unitsCaptured := none }

/-- The custom path's bucket-token test:
`cat.replace('-','') in col_str.replace('-','').replace(' ','')`. -/
def bucketTokenIn (cat col_str : String) : Bool :=
  strContains (removeChar ' ' (removeChar '-' col_str)) (removeChar '-' cat)

/-- One iteration of the custom path's bucket-column scan for bucket
`cat`; assignments overwrite (dict semantics), so the last matching
column wins per generated key. -/
def customBucketStep (row : Row) (cat : String) (acc : Row) (col : String) :
    Row :=
  let col_str := pyLower col
  if bucketTokenIn cat col_str then
    if strContains col_str "appt" then
      acc.set ("(" ++ cat ++ ") Issued Appts") (row.get col (RawCell.num 0))
    else if strContains col_str "close" then
      acc.set ("(" ++ cat ++ ") Overall Close %") (row.get col (RawCell.num 0))
    else if strContains col_str "capture" then
      acc.set ("(" ++ cat ++ ") Units Captured on Sold Jobs %")
        (row.get col (RawCell.num 0))
    else acc
  else acc

/-- The standardized row the custom path builds for the row at index
`idx` before re-running the standard processor. -/
def standardize_row (colmap : ColumnMapping) (columns : List String)
    (idx : Nat) (row : Row) : Row :=
  let base : Row :=
    [("Sales Rep",
        row.get (colmap.salesRep.getD "Sales Rep")
          (RawCell.str ("Rep_" ++ pyNatStr idx))),
     ("Issued Appts",
        row.get (colmap.issuedAppts.getD "Issued Appts") (RawCell.num 0)),
     ("Overall Close %",
        row.get (colmap.overallClose.getD "Overall Close %") (RawCell.num 0)),
     ("Units Captured on Sold Jobs %",
        row.get (colmap.unitsCaptured.getD "Units Captured on Sold Jobs %")
          (RawCell.num 0))]
  unit_categories.foldl
    (fun acc cat => columns.foldl (customBucketStep row cat) acc) base

/-- `SalesDataConverter.process_custom_format`.  (The intermediate
`pd.DataFrame(standardized_data)` round-trip fills keys missing from a
row with NaN; for every key the standard processor reads, that yields
the same coercion outcome as the dict default, so the standardized rows
are passed on directly.) -/
def process_custom_format (columns : List String) (df : List Row) :
    List RepRecord :=
  let colmap := build_column_mapping columns
  process_standard_format
    (df.enum.map (fun p => standardize_row colmap columns p.1 p.2))

/-- Sequential effectful map over `Except`: the Python pattern of a
loop whose body may raise, aborting the remainder. -/
def mapExcept {α β : Type} (f : α → Except String β) :
    List α → Except String (List β)
  | [] => Except.ok []
  | x :: xs => do
    let y ← f x
    let ys ← mapExcept f xs
    return y :: ys

/-- `categories[cat]` lookup on a record, as an optional value. -/
def lookupCat (rep : RepRecord) (key : String) : Option BucketMetrics :=
  (List.find? (fun p => p.1 = key) rep.categories).map (fun p => p.2)

/-- `rep['categories'][key]`: a missing bucket is a KeyError. -/
def getCat (rep : RepRecord) (key : String) : Except String BucketMetrics :=
  match lookupCat rep key with
  | some b => Except.ok b
  | none => Except.error ("KeyError: " ++ key)

/-- The statistics dict `validate_data` returns. -/
structure ValidationStats where
  total_reps : Nat
  reps_with_appointments : Nat
  avg_appointments : ℚ
  categories_with_data : List (String × Nat)
deriving DecidableEq, Repr

/-- `x > 0` on a number-or-None, as Python evaluates it: comparing
`None` raises. -/
def pyGTzero : Option ℚ → Except String Bool
  | none => Except.error "TypeError: NoneType is not orderable"
  | some q => Except.ok (decide (0 < q))

/-- A number-or-None used in arithmetic (`sum`): `None` raises. -/
def pyNumVal : Option ℚ → Except String ℚ
  | none => Except.error "TypeError: NoneType in arithmetic"
  | some q => Except.ok q

/-- The per-bucket filter of `validate_data`:
`rep['categories'][cat]['appointments'] > 0 and
 rep['categories'][cat]['closeRate'] is not None`. -/
def repHasBucketData (cat : String) (rep : RepRecord) :
    Except String Bool := do
  let b ← getCat rep cat
  let pos ← pyGTzero b.appointments
  return pos && b.closeRate.isSome

/-- `SalesDataConverter.validate_data`: raises on an empty record list,
otherwise computes the statistics dict. -/
def validate_data (sales_data : List RepRecord) :
    Except String ValidationStats := do
  if sales_data.isEmpty then
    Except.error "No valid sales data found"
  else
    let withAppts ← mapExcept (fun rep => pyGTzero rep.totalAppts) sales_data
    let totals ← mapExcept (fun rep => pyNumVal rep.totalAppts) sales_data
    let catCounts ← mapExcept (fun cat => do
      let flags ← mapExcept (repHasBucketData cat) sales_data
      return (cat, (flags.filter id).length)) unit_categories
    return { total_reps := sales_data.length
             reps_with_appointments := (withAppts.filter id).length
             avg_appointments := totals.sum / (sales_data.length : ℚ)
             categories_with_data := catCounts }

/-- Suffix test on the character list, modelling `key.endswith(...)`. -/
def strEndsWith (s suffix : String) : Bool :=
  decide (suffix.data <:+ s.data)

/-- `key.endswith('Appts')` in the dashboard's `safe_get`. -/
def keyIsApptsKey (key : String) : Bool := strEndsWith key "Appts"

/-- `'Close' in key` in the dashboard's `safe_get`. -/
def keyHasClose (key : String) : Bool := strContains key "Close"

/-- `'Capture' in key` in the dashboard's `safe_get`. -/
def keyHasCapture (key : String) : Bool := strContains key "Capture"

/-- The fallback value `safe_get` resolves to on missing/unparsable data:
`default if key.endswith('Appts') else None if 'Close' in key else default`. -/
def safeGetFallback (key : String) (default : ℚ) : Option ℚ :=
  if keyIsApptsKey key then some default
  else if keyHasClose key then none
  else some default

/-- `float(val)` on a cell (no `%`/`,` stripping — unlike the
converter's cleaning). -/
def pyFloatCell : RawCell → Option ℚ
  | RawCell.absent => none
  | RawCell.str s => parseFloat s
  | RawCell.num q => some q

/-- `int(val)` on a cell: truncates numbers, parses integer strings. -/
def pyIntCell : RawCell → Option ℤ
  | RawCell.absent => none
  | RawCell.str s => parseIntStr s
  | RawCell.num q => some (pyTrunc q)

/-- The dashboard's inner `safe_get(key, default)`: total (its bare
`except` absorbs parse failures). -/
def safe_get (row : Row) (key : String) (default : ℚ := 0) : Option ℚ :=
  let val := row.get key (RawCell.num default)
  if isNoValueCell val then safeGetFallback key default
  else if keyHasClose key || keyHasCapture key then
    match pyFloatCell val with
    | some q => some q
    | none => safeGetFallback key default
  else
    match pyIntCell val with
    | some n => some (n : ℚ)
    | none => safeGetFallback key default

/-- The dashboard's inline overall rescale
`v * 100 if v <= 1 else v`: evaluating the comparison on `None` raises. -/
def pyScalePct : Option ℚ → Except String ℚ
  | none => Except.error "TypeError: NoneType is not orderable"
  | some q => Except.ok (if q ≤ 1 then q * 100 else q)

/-- The dashboard's guarded bucket rescale:
`if rate is not None and rate <= 1: rate *= 100`. -/
def rescaleFrac : Option ℚ → Option ℚ
  | none => none
  | some q => if q ≤ 1 then some (q * 100) else some q

/-- One row of `convert_excel_to_sales_data` (the loop body). -/
def convertExcelRow (row : Row) : Except String RepRecord := do
  let name := pyStr (row.get "Sales Rep" (RawCell.str "Unknown"))
  let totalAppts := safe_get row "Issued Appts" 0
  let overallClose ← pyScalePct (safe_get row "Overall Close %" 0)
  let overallCapture ← pyScalePct
    (safe_get row "Units Captured on Sold Jobs %" 0)
  let categories := unit_categories.map (fun cat =>
    (cat,
      { appointments := safe_get row ("(" ++ cat ++ ") Issued Appts") 0
        closeRate :=
          rescaleFrac (safe_get row ("(" ++ cat ++ ") Overall Close %") 0)
        captureRate :=
          rescaleFrac
            (safe_get row ("(" ++ cat ++ ") Units Captured on Sold Jobs %")
              0) }))
  return { name := name
           totalAppts := totalAppts
           overallClose := some overallClose
           overallCapture := some overallCapture
           categories := categories }

/-- The dashboard's `convert_excel_to_sales_data`: no per-row handler, so
the first raising row aborts the whole conversion. -/
def convert_excel_to_sales_data (df : List Row) :
    Except String (List RepRecord) :=
  mapExcept convertExcelRow df

/-- The dict `calculate_performance_score` returns. -/
structure ScoredRep where
  name : String
  score : ℚ
  overallClose : ℚ
  avgCategoryClose : ℚ
  avgCategoryCapture : ℚ
  totalAppts : Option ℚ
  validCategories : Nat
  rawData : RepRecord
deriving DecidableEq, Repr

/-- Python `x or 0` on a number-or-None (`None` and `0` are falsy). -/
def orZero : Option ℚ → ℚ
  | none => 0
  | some q => q

/-- One iteration of the valid-category loop of
`calculate_performance_score`: `cat_data['appointments'] >= 2` raises on
`None`; an absent or non-positive close rate just disqualifies the
bucket; the collected capture rate is `captureRate or 0`. -/
def validCategoryEntry (rep : RepRecord) (cat_key : String) :
    Except String (Option (ℚ × ℚ × ℚ)) := do
  let cat_data ← getCat rep cat_key
  match cat_data.appointments with
  | none => Except.error "TypeError: NoneType is not orderable"
  | some a =>
    if 2 ≤ a then
      match cat_data.closeRate with
      | some c =>
        if 0 < c then return some (a, c, orZero cat_data.captureRate)
        else return none
      | none => return none
    else return none

/-- `calculate_performance_score` of the dashboard. -/
def calculate_performance_score (rep : RepRecord) :
    Except String ScoredRep := do
  let entries ← mapExcept (validCategoryEntry rep) unit_categories
  let valid_categories := entries.reduceOption
  let total_weighted_close := (valid_categories.map (fun v => v.2.1 * v.1)).sum
  let total_weighted_capture :=
    (valid_categories.map (fun v => v.2.2 * v.1)).sum
  let total_weight := (valid_categories.map (fun v => v.1)).sum
  let avg_category_close :=
    if 0 < total_weight then total_weighted_close / total_weight else 0
  let avg_category_capture :=
    if 0 < total_weight then total_weighted_capture / total_weight else 0
  let normalized_capture := min avg_category_capture 150
  match rep.overallClose with
  | none => Except.error "TypeError: NoneType in arithmetic"
  | some oc =>
    return { name := rep.name
             score := oc * (50 / 100) + avg_category_close * (15 / 100) +
               normalized_capture * (35 / 100)
             overallClose := oc
             avgCategoryClose := avg_category_close
             avgCategoryCapture := avg_category_capture
             totalAppts := rep.totalAppts
             validCategories := valid_categories.length
             rawData := rep }

/-- One rep's contribution to a bucket's leader pool (tab 2 of the
dashboard): qualification `appointments >= 3, closeRate present and
positive`, score `closeRate*0.6 + min(captureRate or 0, 150)*0.4`. -/
def categoryEntry (cat_key : String) (rep : RepRecord) :
    Except String (Option (RepRecord × ℚ)) := do
  let cat_data ← getCat rep cat_key
  match cat_data.appointments with
  | none => Except.error "TypeError: NoneType is not orderable"
  | some a =>
    if 3 ≤ a then
      match cat_data.closeRate with
      | some c =>
        if 0 < c then
          return some (rep,
            c * (6 / 10) + min (orZero cat_data.captureRate) 150 * (4 / 10))
        else return none
      | none => return none
    else return none

/-- Python `max(..., key=...)`: keeps the earliest entry on ties. -/
def maxBySnd (best : RepRecord × ℚ) : List (RepRecord × ℚ) → RepRecord × ℚ
  | [] => best
  | x :: xs => maxBySnd (if best.2 < x.2 then x else best) xs

/-- The dashboard's per-bucket leader: `none` when no rep qualifies
(the bucket stays out of `category_leaders`). -/
def categoryLeader (data : List RepRecord) (cat_key : String) :
    Except String (Option RepRecord) := do
  let entries ← mapExcept (categoryEntry cat_key) data
  match entries.reduceOption with
  | [] => return none
  | e :: rest => return some ((maxBySnd e rest).1)

/-! ## Specification-side definitions

The following definitions restate, in the words of the specification's
claims, the quantities the implementation is claimed to compute.  They
are compared with the embedded implementation in the theorems below. -/

/-- Spec: the parsed numeric magnitude of a raw cell under the
converter's cleaning rules ("whose value parses to a numeric
magnitude"). -/
def parseMagnitude : RawCell → Option ℚ
  | RawCell.absent => none
  | RawCell.num q => some q
  | RawCell.str s =>
    if s = "-" ∨ s = "" then none
    else
      let cleaned := cleanNumStr s
      if cleaned = "" ∨ cleaned = "-" then none else parseFloat cleaned

/-- Spec: a bucket qualifies for the score's averages iff
`appointments >= 2` and a present `closeRate > 0`. -/
def specBucketValid (b : BucketMetrics) : Bool :=
  match b.appointments, b.closeRate with
  | some a, some c => decide (2 ≤ a) && decide (0 < c)
  | _, _ => false

/-- Spec: the qualifying buckets, in bucket order. -/
def specValidBuckets (bs : List BucketMetrics) : List BucketMetrics :=
  bs.filter specBucketValid

/-- Spec: the total appointment weight of the qualifying buckets. -/
def specWeight (bs : List BucketMetrics) : ℚ :=
  ((specValidBuckets bs).map (fun b => orZero b.appointments)).sum

/-- Spec: appointment-weighted average close rate over the qualifying
buckets, `0` when no bucket qualifies. -/
def specAvgCategoryClose (bs : List BucketMetrics) : ℚ :=
  if specValidBuckets bs = [] then 0
  else ((specValidBuckets bs).map
      (fun b => orZero b.closeRate * orZero b.appointments)).sum /
    specWeight bs

/-- Spec: appointment-weighted average capture rate over the qualifying
buckets (an absent capture contributes its weight to the denominator but
`0` to the numerator), `0` when no bucket qualifies. -/
def specAvgCategoryCapture (bs : List BucketMetrics) : ℚ :=
  if specValidBuckets bs = [] then 0
  else ((specValidBuckets bs).map
      (fun b => orZero b.captureRate * orZero b.appointments)).sum /
    specWeight bs

/-- Spec: `score = overallCloseRate*0.50 + avgCategoryCloseRate*0.15 +
min(avgCategoryCaptureRate, 150)*0.35`. -/
def specScore (oc : ℚ) (bs : List BucketMetrics) : ℚ :=
  oc * (50 / 100) + specAvgCategoryClose bs * (15 / 100) +
    min (specAvgCategoryCapture bs) 150 * (35 / 100)

/-- Spec: "reliable bucket data" in the validator: bucket
`appointments > 0` and `closeRate` present. -/
def specReliable (cat : String) (r : RepRecord) : Bool :=
  match lookupCat r cat with
  | some b => decide (0 < orZero b.appointments) && b.closeRate.isSome
  | none => false

/-- Well-formedness of a record for the validator and scorer: a present
`totalAppts` and, for each fixed bucket, a present bucket entry with a
present appointment count (both converters always produce this shape). -/
def RepWFb (r : RepRecord) : Bool :=
  r.totalAppts.isSome &&
    unit_categories.all (fun cat =>
      match lookupCat r cat with
      | some b => b.appointments.isSome
      | none => false)

/-- The four canonical slots of the custom column mapper. -/
inductive CanonicalSlot where
  | repName | totalAppointments | overallCloseRate | overallCaptureRate
deriving DecidableEq, Repr

/-- The slot the mapper's if/elif chain routes a label to, if any. -/
def labelSlot (col : String) : Option CanonicalSlot :=
  let l := pyLower col
  if labelMatchesName l then some CanonicalSlot.repName
  else if labelMatchesAppts l then some CanonicalSlot.totalAppointments
  else if labelMatchesClose l then some CanonicalSlot.overallCloseRate
  else if labelMatchesCapture l then some CanonicalSlot.overallCaptureRate
  else none

/-- The last label in sequence order that the chain routes to `s`. -/
def lastMatch (columns : List String) (s : CanonicalSlot) : Option String :=
  columns.reverse.find? (fun c => labelSlot c = some s)

/-- Spec (claim wording): per canonical slot, the FIRST label whose
lower-cased text contains one of that slot's keywords. -/
def firstMatchMapping (columns : List String) : ColumnMapping :=
  { salesRep := columns.find? (fun c => labelMatchesName (pyLower c))
    issuedAppts := columns.find? (fun c => labelMatchesAppts (pyLower c))
    overallClose := columns.find? (fun c => labelMatchesClose (pyLower c))
    unitsCaptured := columns.find? (fun c => labelMatchesCapture (pyLower c)) }

/-- Spec: one rep's qualification and score for a bucket leaderboard —
qualified iff the bucket has `appointments >= 3` and a present
`closeRate > 0`, scored `closeRate*0.6 + min(captureRate or 0, 150)*0.4`. -/
def leadEntry (cat : String) (rep : RepRecord) : Option (RepRecord × ℚ) :=
  match lookupCat rep cat with
  | some b =>
    match b.appointments, b.closeRate with
    | some a, some c =>
      if 3 ≤ a ∧ 0 < c then
        some (rep, c * (6 / 10) + min (orZero b.captureRate) 150 * (4 / 10))
      else none
    | _, _ => none
  | none => none

/-- Spec: the per-bucket leader pool — exactly the qualified reps with
their bucket scores. -/
def specLeaderPool (data : List RepRecord) (cat : String) :
    List (RepRecord × ℚ) :=
  data.filterMap (leadEntry cat)

/-- Whether a row has an entry for `key` at all. -/
def rowHasKey (row : Row) (key : String) : Bool :=
  (List.find? (fun p => p.1 = key) row).isSome

/-! ## Generic helper lemmas -/

theorem exceptBind_ok {α β : Type} (a : α) (f : α → Except String β) :
    (Except.ok a >>= f) = f a := rfl

theorem exceptBind_error {α β : Type} (e : String)
    (f : α → Except String β) :
    ((Except.error e : Except String α) >>= f) = Except.error e := rfl

theorem exceptPure_eq_ok {α : Type} (a : α) :
    (pure a : Except String α) = Except.ok a := rfl

/-- `mapExcept` succeeds pointwise. -/
theorem mapExcept_ok_of {α β : Type} (f : α → Except String β) (g : α → β) :
    ∀ (l : List α), (∀ x ∈ l, f x = Except.ok (g x)) →
      mapExcept f l = Except.ok (l.map g)
  | [], _ => rfl
  | x :: xs, h => by
    have hx := h x (List.mem_cons_self x xs)
    have ih := mapExcept_ok_of f g xs
      (fun y hy => h y (List.mem_cons_of_mem x hy))
    simp only [mapExcept, hx, ih, exceptBind_ok, List.map_cons]
    rfl

/-- A successful `mapExcept` result consists of images of list members. -/
theorem mapExcept_mem_ok {α β : Type} (f : α → Except String β) :
    ∀ (l : List α) (ys : List β), mapExcept f l = Except.ok ys →
      ∀ y ∈ ys, ∃ x ∈ l, f x = Except.ok y := by
  intro l
  induction l with
  | nil =>
    intro ys h y hy
    simp only [mapExcept] at h
    cases h
    simp at hy
  | cons x xs ih =>
    intro ys h y hy
    simp only [mapExcept] at h
    cases hx : f x with
    | error e => rw [hx] at h; exact absurd h (by simp [exceptBind_error])
    | ok b =>
      rw [hx, exceptBind_ok] at h
      cases hxs : mapExcept f xs with
      | error e => rw [hxs] at h; exact absurd h (by simp [exceptBind_error])
      | ok bs =>
        rw [hxs, exceptBind_ok] at h
        cases h
        rcases List.mem_cons.mp hy with hyb | hybs
        · exact ⟨x, List.mem_cons_self x xs, hyb ▸ hx⟩
        · obtain ⟨x', hx', hfx'⟩ := ih bs hxs y hybs
          exact ⟨x', List.mem_cons_of_mem x hx', hfx'⟩

/-- Collapsing an if-some/none map: collected values are the images of
the elements passing the test. -/
theorem reduceOption_map_ite {α β : Type} (p : α → Bool) (g : α → β) :
    ∀ l : List α,
      (l.map (fun x => if p x then some (g x) else none)).reduceOption =
        (l.filter p).map g
  | [] => rfl
  | x :: xs => by
    cases hp : p x with
    | true =>
      simp only [List.map_cons, hp, if_pos, List.filter_cons_of_pos,
        List.reduceOption_cons_of_some, reduceOption_map_ite p g xs]
    | false =>
      simp only [List.map_cons, hp, if_neg, Bool.false_eq_true,
        not_false_iff, List.filter_cons_of_neg,
        List.reduceOption_cons_of_none, reduceOption_map_ite p g xs]

/-- A filterMap whose function only drops by a boolean test. -/
theorem filterMap_ite_none {α β : Type} (p : α → Bool) (g : α → β) :
    ∀ l : List α,
      (l.filterMap (fun x => if p x then none else some (g x))) =
        (l.filter (fun x => ! p x)).map g
  | [] => rfl
  | x :: xs => by
    cases hp : p x with
    | true =>
      simp only [List.filterMap_cons, hp, if_pos, filterMap_ite_none p g xs,
        List.filter_cons, Bool.not_true, if_neg, Bool.false_eq_true,
        not_false_iff]
    | false =>
      simp only [List.filterMap_cons, hp, if_neg, Bool.false_eq_true,
        not_false_iff, filterMap_ite_none p g xs, List.filter_cons,
        Bool.not_false, if_pos, List.map_cons]

/-- `maxBySnd` returns the start value or a list member. -/
theorem maxBySnd_mem (best : RepRecord × ℚ) :
    ∀ l : List (RepRecord × ℚ), maxBySnd best l = best ∨ maxBySnd best l ∈ l
  | [] => Or.inl rfl
  | x :: xs => by
    simp only [maxBySnd]
    rcases maxBySnd_mem (if best.2 < x.2 then x else best) xs with h | h
    · rw [h]
      split
      · exact Or.inr (List.mem_cons_self _ _)
      · exact Or.inl rfl
    · exact Or.inr (List.mem_cons_of_mem _ h)

/-- The running maximum never decreases. -/
theorem maxBySnd_ge_best (best : RepRecord × ℚ) :
    ∀ l : List (RepRecord × ℚ), best.2 ≤ (maxBySnd best l).2
  | [] => le_refl _
  | x :: xs => by
    simp only [maxBySnd]
    refine le_trans ?_ (maxBySnd_ge_best (if best.2 < x.2 then x else best) xs)
    split
    · exact le_of_lt (by assumption)
    · exact le_refl _

/-- `maxBySnd` dominates every list member. -/
theorem maxBySnd_ge_mem (best : RepRecord × ℚ) :
    ∀ l : List (RepRecord × ℚ), ∀ p ∈ l, p.2 ≤ (maxBySnd best l).2
  | [], p, hp => absurd hp (List.not_mem_nil p)
  | x :: xs, p, hp => by
    simp only [maxBySnd]
    rcases List.mem_cons.mp hp with rfl | h
    · refine le_trans ?_ (maxBySnd_ge_best (if best.2 < p.2 then p else best) xs)
      split
      · exact le_refl _
      · exact le_of_not_lt (by assumption)
    · exact maxBySnd_ge_mem (if best.2 < x.2 then x else best) xs p h

/-- The mapper's step updates the rep-name slot exactly on labels the
chain routes to it. -/
theorem mapColumnStep_salesRep (m : ColumnMapping) (c : String) :
    (mapColumnStep m c).salesRep =
      if labelSlot c = some CanonicalSlot.repName then some c
      else m.salesRep := by
  simp only [mapColumnStep, labelSlot]
  split_ifs <;> simp_all

/-- The mapper's step updates the appointments slot exactly on labels
the chain routes to it. -/
theorem mapColumnStep_issuedAppts (m : ColumnMapping) (c : String) :
    (mapColumnStep m c).issuedAppts =
      if labelSlot c = some CanonicalSlot.totalAppointments then some c
      else m.issuedAppts := by
  simp only [mapColumnStep, labelSlot]
  split_ifs <;> simp_all

/-- The mapper's step updates the overall-close slot exactly on labels
the chain routes to it. -/
theorem mapColumnStep_overallClose (m : ColumnMapping) (c : String) :
    (mapColumnStep m c).overallClose =
      if labelSlot c = some CanonicalSlot.overallCloseRate then some c
      else m.overallClose := by
  simp only [mapColumnStep, labelSlot]
  split_ifs <;> simp_all

/-- The mapper's step updates the capture slot exactly on labels the
chain routes to it. -/
theorem mapColumnStep_unitsCaptured (m : ColumnMapping) (c : String) :
    (mapColumnStep m c).unitsCaptured =
      if labelSlot c = some CanonicalSlot.overallCaptureRate then some c
      else m.unitsCaptured := by
  simp only [mapColumnStep, labelSlot]
  split_ifs <;> simp_all

/-- Folding the mapper's step over the labels leaves, in each slot, the
LAST label routed to that slot (dict overwrite), or the initial value. -/
theorem foldl_mapColumnStep_proj (proj : ColumnMapping → Option String)
    (slot : CanonicalSlot)
    (hstep : ∀ m c, proj (mapColumnStep m c) =
      if labelSlot c = some slot then some c else proj m) :
    ∀ (columns : List String) (m : ColumnMapping),
      proj (columns.foldl mapColumnStep m) =
        match columns.reverse.find? (fun c => labelSlot c = some slot) with
        | some c => some c
        | none => proj m
  | [], m => rfl
  | c :: cs, m => by
    simp only [List.foldl_cons, List.reverse_cons, List.find?_append]
    rw [foldl_mapColumnStep_proj proj slot hstep cs (mapColumnStep m c)]
    cases h : cs.reverse.find? (fun c => decide (labelSlot c = some slot)) with
    | some c' => simp [h, Option.or]
    | none =>
      simp only [h, Option.none_or]
      rw [hstep]
      by_cases hc : labelSlot c = some slot
      · rw [List.find?_cons_of_pos _ (by simpa using hc), if_pos hc]
      · rw [List.find?_cons_of_neg _ (by simpa using hc), if_neg hc]
        rfl

/-- Identity match on an option. -/
theorem matchOptId (o : Option String) :
    (match o with | some c => some c | none => none) = o := by
  cases o <;> rfl

/-- Field-wise equality of column mappings. -/
theorem ColumnMapping.ext_of (x y : ColumnMapping)
    (h1 : x.salesRep = y.salesRep) (h2 : x.issuedAppts = y.issuedAppts)
    (h3 : x.overallClose = y.overallClose)
    (h4 : x.unitsCaptured = y.unitsCaptured) : x = y := by
  cases x; cases y
  cases h1; cases h2; cases h3; cases h4
  rfl

/-- C5 (amended): in the custom-path column mapper, the label assigned to
each canonical slot is the LAST label in sequence order that the if/elif
chain routes to that slot — a later matching label replaces the earlier
assignment (dict overwrite), not the other way round. -/
theorem column_mapper_last_match_wins (columns : List String) :
    build_column_mapping columns =
      { salesRep := lastMatch columns CanonicalSlot.repName
        issuedAppts := lastMatch columns CanonicalSlot.totalAppointments
        overallClose := lastMatch columns CanonicalSlot.overallCloseRate
        unitsCaptured := lastMatch columns CanonicalSlot.overallCaptureRate } := by
  refine ColumnMapping.ext_of _ _ ?_ ?_ ?_ ?_
  · show ColumnMapping.salesRep
      (columns.foldl mapColumnStep
        { salesRep := none, issuedAppts := none, overallClose := none,
          unitsCaptured := none }) = _
    rw [foldl_mapColumnStep_proj ColumnMapping.salesRep CanonicalSlot.repName
      mapColumnStep_salesRep columns]
    exact matchOptId _
  · show ColumnMapping.issuedAppts
      (columns.foldl mapColumnStep
        { salesRep := none, issuedAppts := none, overallClose := none,
          unitsCaptured := none }) = _
    rw [foldl_mapColumnStep_proj ColumnMapping.issuedAppts
      CanonicalSlot.totalAppointments mapColumnStep_issuedAppts columns]
    exact matchOptId _
  · show ColumnMapping.overallClose
      (columns.foldl mapColumnStep
        { salesRep := none, issuedAppts := none, overallClose := none,
          unitsCaptured := none }) = _
    rw [foldl_mapColumnStep_proj ColumnMapping.overallClose
      CanonicalSlot.overallCloseRate mapColumnStep_overallClose columns]
    exact matchOptId _
  · show ColumnMapping.unitsCaptured
      (columns.foldl mapColumnStep
        { salesRep := none, issuedAppts := none, overallClose := none,
          unitsCaptured := none }) = _
    rw [foldl_mapColumnStep_proj ColumnMapping.unitsCaptured
      CanonicalSlot.overallCaptureRate mapColumnStep_unitsCaptured columns]
    exact matchOptId _

/-- C5 (counterexample): on the label sequence
`["rep name", "customer name"]` both labels match the rep-name keywords;
the claim's first-match rule would keep `"rep name"`, but the code
assigns the LATER label `"customer name"` to the slot. -/
theorem column_mapper_first_match_cex :
    build_column_mapping ["rep name", "customer name"] ≠
        firstMatchMapping ["rep name", "customer name"] ∧
      (build_column_mapping ["rep name", "customer name"]).salesRep =
        some "customer name" ∧
      (firstMatchMapping ["rep name", "customer name"]).salesRep =
        some "rep name" := by
  refine ⟨?_, by decide, by decide⟩
  decide

/-- C2: for every raw cell coerced with `is_percentage=true` whose value
parses to a numeric magnitude `m`, the coercion returns `100*m` when
`m ≤ 1.0` and `m` unchanged when `m > 1.0`; the same rescale rule is the
one applied by the dashboard conversion (its guarded bucket rescale and
its inline overall rescale); e.g. `0.35` becomes `35` and `1.05` stays
`1.05`. -/
theorem percentage_rescale_law :
    (∀ (v : RawCell) (d m : ℚ), parseMagnitude v = some m →
        safe_convert_numeric v true d = some (if m ≤ 1 then 100 * m else m)) ∧
      (∀ m : ℚ, rescaleFrac (some m) = some (if m ≤ 1 then 100 * m else m)) ∧
      (∀ m : ℚ, pyScalePct (some m) =
          Except.ok (if m ≤ 1 then 100 * m else m)) ∧
      safe_convert_numeric (RawCell.num (35 / 100)) true 0 = some 35 ∧
      safe_convert_numeric (RawCell.num (105 / 100)) true 0 =
        some (105 / 100) := by
  refine ⟨?_, ?_, ?_, ?_, ?_⟩
  · intro v d m h
    cases v with
    | absent => simp [parseMagnitude] at h
    | num q =>
      simp only [parseMagnitude, Option.some.injEq] at h
      subst h
      simp only [safe_convert_numeric, isNoValueCell, Bool.false_eq_true,
        if_false, pctAdjust, true_and, Option.some.injEq]
      split_ifs with h1
      · rw [mul_comm]
      · rfl
    | str s =>
      simp only [parseMagnitude] at h
      by_cases h1 : s = "-" ∨ s = ""
      · rw [if_pos h1] at h; cases h
      · rw [if_neg h1] at h
        by_cases h2 : cleanNumStr s = "" ∨ cleanNumStr s = "-"
        · rw [if_pos h2] at h; cases h
        · rw [if_neg h2] at h
          simp only [safe_convert_numeric, isNoValueCell]
          rw [if_neg (by simpa using h1)]
          rw [if_neg h2, h]
          simp only [pctAdjust, true_and, Option.some.injEq]
          split_ifs with h3
          · rw [mul_comm]
          · rfl
  · intro m
    simp only [rescaleFrac, Option.some.injEq]
    split_ifs with h1
    · rw [mul_comm]
    · rfl
  · intro m
    simp only [pyScalePct, Except.ok.injEq]
    split_ifs with h1
    · rw [mul_comm]
    · rfl
  · norm_num [safe_convert_numeric, isNoValueCell, pctAdjust]
  · norm_num [safe_convert_numeric, isNoValueCell, pctAdjust]

/-- C2 witness: the percent string `"42%"` parses to magnitude `42` and
coerces, under the percentage rule, to `42`. -/
theorem percentage_rescale_law_witness :
    parseMagnitude (RawCell.str "42%") = some 42 ∧
      safe_convert_numeric (RawCell.str "42%") true 0 = some 42 := by
  have hp : parseMagnitude (RawCell.str "42%") = some 42 := by
    norm_num +decide [parseMagnitude, cleanNumStr, parseFloat, removeChar,
      pyStrip, digitsVal]
  refine ⟨hp, ?_⟩
  have h := percentage_rescale_law.1 (RawCell.str "42%") 0 42 hp
  rw [h]
  norm_num

/-- C7: a row whose derived (trimmed) name is empty or lower-cases to the
`"nan"` sentinel is excluded from the normalized output (not an error):
the output is exactly the in-order image of the non-skipped rows, so its
length is at most the input row count and the surviving records keep the
relative input order (no sorting). -/
theorem row_skip_law (df : List Row) :
    (process_standard_format df).length ≤ df.length ∧
      process_standard_format df =
        (df.enum.filter
          (fun p => ! nameSkipped (standardRowName p.1 p.2))).map
          (fun p => buildStandardRecord p.2 (standardRowName p.1 p.2)) := by
  constructor
  · calc (process_standard_format df).length ≤ df.enum.length :=
          List.length_filterMap_le _ _
      _ = df.length := List.enum_length
  · unfold process_standard_format processStandardRow
    exact filterMap_ite_none
      (fun p => nameSkipped (standardRowName p.1 p.2))
      (fun p => buildStandardRecord p.2 (standardRowName p.1 p.2)) df.enum

/-- First projections of a key-tagging map. -/
theorem map_fst_pairs {β : Type} (f : String → β) :
    ∀ l : List String, (l.map (fun cat => (cat, f cat))).map Prod.fst = l
  | [] => rfl
  | a :: t => by simp [map_fst_pairs f t]

/-- The categories a successful dashboard row conversion stores. -/
theorem convertExcelRow_categories (row : Row) (rec : RepRecord)
    (h : convertExcelRow row = Except.ok rec) :
    rec.categories = unit_categories.map (fun cat =>
      (cat,
        { appointments := safe_get row ("(" ++ cat ++ ") Issued Appts") 0
          closeRate :=
            rescaleFrac (safe_get row ("(" ++ cat ++ ") Overall Close %") 0)
          captureRate :=
            rescaleFrac
              (safe_get row ("(" ++ cat ++ ") Units Captured on Sold Jobs %")
                0) })) := by
  unfold convertExcelRow at h
  cases h1 : pyScalePct (safe_get row "Overall Close %" 0) with
  | error e =>
    rw [h1] at h
    exact absurd h (by simp [exceptBind_ok, exceptBind_error])
  | ok oc =>
    rw [h1] at h
    cases h2 : pyScalePct (safe_get row "Units Captured on Sold Jobs %" 0) with
    | error e =>
      rw [h2] at h
      exact absurd h (by simp [exceptBind_ok, exceptBind_error])
    | ok ocap =>
      rw [h2] at h
      simp only [exceptBind_ok, exceptPure_eq_ok, Except.ok.injEq] at h
      rw [← h]

/-- C9: every record produced by either normalization path carries
exactly the five fixed buckets, in the fixed order, as the keys of its
`categories` mapping. -/
theorem fixed_bucket_keys :
    (∀ df : List Row, ∀ rec ∈ process_standard_format df,
        rec.categories.map Prod.fst = unit_categories) ∧
      (∀ (df : List Row) (recs : List RepRecord),
        convert_excel_to_sales_data df = Except.ok recs →
        ∀ rec ∈ recs, rec.categories.map Prod.fst = unit_categories) := by
  constructor
  · intro df rec hrec
    obtain ⟨p, _, hsome⟩ := List.mem_filterMap.mp hrec
    simp only [processStandardRow] at hsome
    by_cases h : nameSkipped (standardRowName p.1 p.2)
    · rw [if_pos h] at hsome; cases hsome
    · rw [if_neg h] at hsome
      cases hsome
      exact map_fst_pairs _ _
  · intro df recs hok rec hrec
    obtain ⟨row, _, hrow⟩ := mapExcept_mem_ok _ df recs hok rec hrec
    rw [convertExcelRow_categories row rec hrow]
    exact map_fst_pairs _ _

/-- A concrete well-formed input row. -/
def rowWit : Row := [("Sales Rep", RawCell.str "A"), ("Issued Appts", RawCell.num 25)]

/-- C9 witness: the record the converter produces from `rowWit` carries
exactly the five fixed bucket keys. -/
theorem fixed_bucket_keys_witness :
    (buildStandardRecord rowWit "A").categories.map Prod.fst =
      unit_categories := by
  have hname : standardRowName 0 rowWit = "A" := by decide
  have hskip : nameSkipped "A" = false := by decide
  have hmem : buildStandardRecord rowWit "A" ∈ process_standard_format [rowWit] := by
    simp only [process_standard_format, List.enum, List.enumFrom,
      List.filterMap_cons, processStandardRow, hname, hskip,
      Bool.false_eq_true, if_false, List.filterMap_nil]
    exact List.mem_singleton.mpr rfl
  exact fixed_bucket_keys.1 [rowWit] (buildStandardRecord rowWit "A") hmem

/-- Counting `true`s of a boolean map is counting the passing elements. -/
theorem length_filter_id_map {α : Type} (g : α → Bool) :
    ∀ l : List α, ((l.map g).filter id).length = (l.filter g).length
  | [] => rfl
  | a :: t => by
    cases hg : g a <;>
      simp [List.filter_cons, hg, length_filter_id_map g t]

/-- On a well-formed record the appointments comparison evaluates. -/
theorem pyGTzero_of_wf (r : RepRecord) (h : RepWFb r = true) :
    pyGTzero r.totalAppts = Except.ok (decide (0 < orZero r.totalAppts)) := by
  simp only [RepWFb, Bool.and_eq_true] at h
  cases ht : r.totalAppts with
  | none => rw [ht] at h; simp at h
  | some t => simp [pyGTzero, orZero]

/-- On a well-formed record the appointments value evaluates. -/
theorem pyNumVal_of_wf (r : RepRecord) (h : RepWFb r = true) :
    pyNumVal r.totalAppts = Except.ok (orZero r.totalAppts) := by
  simp only [RepWFb, Bool.and_eq_true] at h
  cases ht : r.totalAppts with
  | none => rw [ht] at h; simp at h
  | some t => simp [pyNumVal, orZero]

/-- On a well-formed record the validator's bucket filter agrees with the
spec's reliable-bucket test. -/
theorem repHasBucketData_of_wf (cat : String) (r : RepRecord)
    (hcat : cat ∈ unit_categories) (h : RepWFb r = true) :
    repHasBucketData cat r = Except.ok (specReliable cat r) := by
  simp only [RepWFb, Bool.and_eq_true, List.all_eq_true] at h
  obtain ⟨-, hall⟩ := h
  have hb := hall cat hcat
  cases hl : lookupCat r cat with
  | none => rw [hl] at hb; simp at hb
  | some b =>
    rw [hl] at hb
    simp only at hb
    cases ha : b.appointments with
    | none => rw [ha] at hb; simp at hb
    | some a =>
      simp only [repHasBucketData, getCat, hl, exceptBind_ok, ha, pyGTzero,
        specReliable, orZero]
      rfl

/-- C6: `validate_data` fails exactly on emptiness — the empty list
raises the empty-dataset error, and on any non-empty list of well-formed
records it succeeds and returns the total rep count, the count of reps
with positive appointments, the arithmetic mean of appointments, and the
per-bucket counts of reps with reliable bucket data. -/
theorem validator_emptiness :
    validate_data [] = Except.error "No valid sales data found" ∧
      ∀ l : List RepRecord, l ≠ [] → (∀ r ∈ l, RepWFb r = true) →
        validate_data l = Except.ok
          { total_reps := l.length
            reps_with_appointments :=
              (l.filter (fun r => decide (0 < orZero r.totalAppts))).length
            avg_appointments :=
              (l.map (fun r => orZero r.totalAppts)).sum / (l.length : ℚ)
            categories_with_data := unit_categories.map (fun cat =>
              (cat, (l.filter (specReliable cat)).length)) } := by
  constructor
  · rfl
  · intro l hne hwf
    have hWith : mapExcept (fun rep => pyGTzero rep.totalAppts) l =
        Except.ok (l.map (fun r => decide (0 < orZero r.totalAppts))) :=
      mapExcept_ok_of _ _ l (fun r hr => pyGTzero_of_wf r (hwf r hr))
    have hTot : mapExcept (fun rep => pyNumVal rep.totalAppts) l =
        Except.ok (l.map (fun r => orZero r.totalAppts)) :=
      mapExcept_ok_of _ _ l (fun r hr => pyNumVal_of_wf r (hwf r hr))
    have hCat : mapExcept (fun cat => do
          let flags ← mapExcept (repHasBucketData cat) l
          return (cat, (flags.filter id).length)) unit_categories =
        Except.ok (unit_categories.map (fun cat =>
          (cat, (l.filter (specReliable cat)).length))) := by
      refine mapExcept_ok_of _ _ unit_categories (fun cat hcat => ?_)
      have hflags : mapExcept (repHasBucketData cat) l =
          Except.ok (l.map (specReliable cat)) :=
        mapExcept_ok_of _ _ l
          (fun r hr => repHasBucketData_of_wf cat r hcat (hwf r hr))
      rw [hflags, exceptBind_ok]
      rw [length_filter_id_map (specReliable cat) l]
      rfl
    have hempty : l.isEmpty = false := by
      cases l with
      | nil => exact absurd rfl hne
      | cons a t => rfl
    simp only [validate_data, hempty, Bool.false_eq_true, if_false]
    rw [hWith, exceptBind_ok, hTot, exceptBind_ok, hCat, exceptBind_ok]
    simp only [exceptPure_eq_ok, length_filter_id_map]

/-- C6 witness: validating a concrete one-record list succeeds with the
claimed statistics. -/
theorem validator_emptiness_witness :
    validate_data [buildStandardRecord rowWit "A"] = Except.ok
      { total_reps := [buildStandardRecord rowWit "A"].length
        reps_with_appointments :=
          ([buildStandardRecord rowWit "A"].filter
            (fun r => decide (0 < orZero r.totalAppts))).length
        avg_appointments :=
          ([buildStandardRecord rowWit "A"].map
            (fun r => orZero r.totalAppts)).sum /
            (([buildStandardRecord rowWit "A"] : List RepRecord).length : ℚ)
        categories_with_data := unit_categories.map (fun cat =>
          (cat,
            ([buildStandardRecord rowWit "A"].filter
              (specReliable cat)).length)) } :=
  validator_emptiness.2 [buildStandardRecord rowWit "A"] (by simp)
    (by decide)

/-- Decimal digit characters are not whitespace. -/
theorem decChar_not_ws (d : Nat) : (decChar d).isWhitespace = false := by
  unfold decChar
  split <;> decide

/-- The digit list always starts with a digit character. -/
theorem decRevDigits_head (n : Nat) :
    ∃ d t, decRevDigits n = decChar d :: t := by
  rw [decRevDigits]
  split
  · exact ⟨n, [], rfl⟩
  · exact ⟨n % 10, decRevDigits (n / 10), rfl⟩

/-- A filterMap that never drops is a map. -/
theorem filterMap_eq_map_of {α β : Type} (f : α → Option β) (g : α → β) :
    ∀ l : List α, (∀ x ∈ l, f x = some (g x)) → l.filterMap f = l.map g
  | [], _ => rfl
  | x :: xs, h => by
    rw [List.filterMap_cons, h x (List.mem_cons_self x xs), List.map_cons,
      filterMap_eq_map_of f g xs (fun y hy => h y (List.mem_cons_of_mem x hy))]

/-- Indexing an `enumFrom`. -/
theorem enumFrom_get? {α : Type} :
    ∀ (n : Nat) (l : List α) (i : Nat),
      (l.enumFrom n).get? i = (l.get? i).map (fun a => (n + i, a))
  | _, [], _ => by simp [List.enumFrom]
  | n, a :: t, 0 => by simp [List.enumFrom]
  | n, a :: t, i + 1 => by
    simp only [List.enumFrom, List.get?]
    rw [enumFrom_get? (n + 1) t i]
    have : n + 1 + i = n + (i + 1) := by omega
    rw [this]

/-- Indexing an `enum`. -/
theorem enum_get? {α : Type} (l : List α) (i : Nat) :
    l.enum.get? i = (l.get? i).map (fun a => (i, a)) := by
  rw [List.enum, enumFrom_get? 0 l i]
  simp

/-- A pair of an `enum` is the indexed element. -/
theorem mem_enum_get? {α : Type} (l : List α) (p : Nat × α)
    (h : p ∈ l.enum) : l.get? p.1 = some p.2 := by
  obtain ⟨n, hn⟩ := List.get?_of_mem h
  rw [enum_get? l n] at hn
  cases hl : l.get? n with
  | none => rw [hl] at hn; cases hn
  | some a =>
    rw [hl] at hn
    simp only [Option.map_some'] at hn
    cases hn
    exact hl

/-- Missing keys resolve to the lookup default. -/
theorem Row.get_of_not_has (row : Row) (key : String) (d : RawCell)
    (h : rowHasKey row key = false) : Row.get row key d = d := by
  unfold Row.get
  unfold rowHasKey at h
  cases hf : List.find? (fun p => p.1 = key) row with
  | none => rfl
  | some p => rw [hf] at h; cases h

/-- Overwriting one key leaves lookups of other keys unchanged. -/
theorem Row.get_set_ne (k1 k2 : String) (v d : RawCell) (h : k1 ≠ k2) :
    ∀ r : Row, (Row.set r k1 v).get k2 d = r.get k2 d
  | [] => by
    simp only [Row.set, Row.get, List.find?]
    rw [decide_eq_false h]
  | p :: rest => by
    by_cases hp : p.1 = k1
    · simp only [Row.set, if_pos hp]
      unfold Row.get
      simp only [List.find?]
      rw [decide_eq_false h, decide_eq_false (hp ▸ h)]
    · simp only [Row.set, if_neg hp]
      unfold Row.get
      simp only [List.find?]
      cases hd : decide (p.1 = k2) with
      | true => rfl
      | false => exact Row.get_set_ne k1 k2 v d h rest

/-- The character data of a synthetic `Rep_<idx>` name. -/
theorem repName_data (i : Nat) :
    ("Rep_" ++ pyNatStr i).data =
      'R' :: 'e' :: 'p' :: '_' :: (decRevDigits i).reverse := by
  rw [String.data_append]
  rfl

/-- Synthetic names carry no surrounding whitespace, so the strip is a
no-op. -/
theorem pyStrip_repName (i : Nat) :
    pyStrip ("Rep_" ++ pyNatStr i) = "Rep_" ++ pyNatStr i := by
  obtain ⟨d, t, hdt⟩ := decRevDigits_head i
  have h1 : List.dropWhile Char.isWhitespace ("Rep_" ++ pyNatStr i).data =
      ("Rep_" ++ pyNatStr i).data := by
    rw [repName_data, List.dropWhile_cons]
    simp
  have hrev : ("Rep_" ++ pyNatStr i).data.reverse =
      decRevDigits i ++ ['_', 'p', 'e', 'R'] := by
    rw [repName_data]
    simp
  have h2 : List.dropWhile Char.isWhitespace
      (("Rep_" ++ pyNatStr i).data.reverse) =
      ("Rep_" ++ pyNatStr i).data.reverse := by
    rw [hrev, hdt, List.cons_append, List.dropWhile_cons, decChar_not_ws]
    simp
  unfold pyStrip
  rw [h1, h2, List.reverse_reverse]

/-- Synthetic names are neither empty nor the `nan` sentinel. -/
theorem repName_not_skipped (i : Nat) :
    nameSkipped ("Rep_" ++ pyNatStr i) = false := by
  obtain ⟨d, t, hdt⟩ := decRevDigits_head i
  have hlen : ("Rep_" ++ pyNatStr i).data.length = 4 + t.length + 1 := by
    rw [repName_data, hdt]
    simp
    omega
  unfold nameSkipped
  refine decide_eq_false ?_
  rintro (h | h)
  · rw [h] at hlen
    simp at hlen
  · have hd := congrArg String.data h
    unfold pyLower at hd
    have hl := congrArg List.length hd
    rw [List.length_map] at hl
    rw [hlen] at hl
    simp at hl
    omega

/-- Lookup of the head entry of a row. -/
theorem Row.get_cons_self (key : String) (v d : RawCell) (rest : Row) :
    Row.get ((key, v) :: rest) key d = v := by
  unfold Row.get
  simp [List.find?]

/-- Generated bucket keys (which start with a parenthesis) are never the
rep-name key. -/
theorem paren_key_ne (u v : String) : ("(" ++ u ++ v : String) ≠ "Sales Rep" := by
  intro h
  have hd := congrArg String.data h
  rw [String.data_append, String.data_append] at hd
  have h1 : "(".data = ['('] := rfl
  have h2 : "Sales Rep".data = ['S', 'a', 'l', 'e', 's', ' ', 'R', 'e', 'p'] := rfl
  rw [h1, h2, List.singleton_append, List.cons_append] at hd
  injection hd with hc _
  exact absurd hc (by decide)

/-- The custom bucket scan never touches the rep-name entry. -/
theorem customBucketStep_get_salesRep (row : Row) (cat : String) (acc : Row)
    (col : String) (d : RawCell) :
    (customBucketStep row cat acc col).get "Sales Rep" d =
      acc.get "Sales Rep" d := by
  simp only [customBucketStep]
  split_ifs <;>
    first
      | rfl
      | exact Row.get_set_ne _ _ _ _ (paren_key_ne _ _) acc

/-- The whole custom bucket-scan fold never touches the rep-name entry. -/
theorem bucketScan_get_salesRep (row : Row) (columns : List String)
    (d : RawCell) :
    ∀ (cats : List String) (acc : Row),
      ((cats.foldl
        (fun acc cat => columns.foldl (customBucketStep row cat) acc)
        acc).get "Sales Rep" d) = acc.get "Sales Rep" d := by
  have hinner : ∀ (cat : String) (cols : List String) (acc : Row),
      ((cols.foldl (customBucketStep row cat) acc).get "Sales Rep" d) =
        acc.get "Sales Rep" d := by
    intro cat cols
    induction cols with
    | nil => intro acc; rfl
    | cons c cs ih =>
      intro acc
      rw [List.foldl_cons, ih, customBucketStep_get_salesRep]
  intro cats
  induction cats with
  | nil => intro acc; rfl
  | cons c cs ih =>
    intro acc
    rw [List.foldl_cons, ih, hinner]

/-- With no mapped name column and no literal name column, the
standardized row's name entry is the synthetic fallback. -/
theorem standardize_row_get_salesRep (colmap : ColumnMapping)
    (columns : List String) (idx : Nat) (row : Row) (d : RawCell)
    (hm : colmap.salesRep = none)
    (hr : rowHasKey row "Sales Rep" = false) :
    (standardize_row colmap columns idx row).get "Sales Rep" d =
      RawCell.str ("Rep_" ++ pyNatStr idx) := by
  unfold standardize_row
  rw [bucketScan_get_salesRep]
  rw [Row.get_cons_self]
  rw [hm, Option.getD_none]
  exact Row.get_of_not_has row "Sales Rep" _ hr

/-- Synthetic names are never the empty string. -/
theorem repName_ne_empty (i : Nat) : ("Rep_" ++ pyNatStr i) ≠ "" := by
  intro h
  have hd := congrArg String.data h
  rw [repName_data] at hd
  simp at hd

/-- When every row derives the synthetic fallback name, nothing is
skipped and the output is the in-order image of the rows. -/
theorem process_named_rows (df : List Row)
    (h : ∀ p ∈ df.enum,
      Row.get p.2 "Sales Rep" (RawCell.str ("Rep_" ++ pyNatStr p.1)) =
        RawCell.str ("Rep_" ++ pyNatStr p.1)) :
    process_standard_format df =
      df.enum.map (fun p => buildStandardRecord p.2 ("Rep_" ++ pyNatStr p.1)) := by
  unfold process_standard_format
  refine filterMap_eq_map_of _ _ df.enum (fun p hp => ?_)
  have hname : standardRowName p.1 p.2 = "Rep_" ++ pyNatStr p.1 := by
    unfold standardRowName
    rw [h p hp]
    exact pyStrip_repName p.1
  simp only [processStandardRow, hname, repName_not_skipped,
    Bool.false_eq_true, if_false]

/-- C10: if the input table has no rep-name column, no row is skipped
for lack of a name — the standard normalizer emits, for the row at index
`idx`, a record named by the non-empty synthetic string `Rep_<idx>`, and
the custom path uses the same fallback; hence any table with at least
one row yields one record per row. -/
theorem missing_name_fallback :
    (∀ df : List Row, (∀ row ∈ df, rowHasKey row "Sales Rep" = false) →
        (process_standard_format df).length = df.length ∧
        ∀ (i : Nat) (rec : RepRecord),
          (process_standard_format df).get? i = some rec →
          rec.name = "Rep_" ++ pyNatStr i ∧ rec.name ≠ "") ∧
      (∀ (columns : List String) (df : List Row),
        (build_column_mapping columns).salesRep = none →
        (∀ row ∈ df, rowHasKey row "Sales Rep" = false) →
        (process_custom_format columns df).length = df.length ∧
        ∀ (i : Nat) (rec : RepRecord),
          (process_custom_format columns df).get? i = some rec →
          rec.name = "Rep_" ++ pyNatStr i ∧ rec.name ≠ "") := by
  constructor
  · intro df hdf
    have h : ∀ p ∈ df.enum,
        Row.get p.2 "Sales Rep" (RawCell.str ("Rep_" ++ pyNatStr p.1)) =
          RawCell.str ("Rep_" ++ pyNatStr p.1) := by
      intro p hp
      exact Row.get_of_not_has p.2 "Sales Rep" _
        (hdf p.2 (List.get?_mem (mem_enum_get? df p hp)))
    rw [process_named_rows df h]
    constructor
    · rw [List.length_map, List.enum_length]
    · intro i rec hrec
      rw [List.get?_map, enum_get?] at hrec
      cases hdi : df.get? i with
      | none => rw [hdi] at hrec; cases hrec
      | some row =>
        rw [hdi] at hrec
        simp only [Option.map_some'] at hrec
        cases hrec
        exact ⟨rfl, repName_ne_empty i⟩
  · intro columns df hm hdf
    unfold process_custom_format
    have h : ∀ p ∈ (df.enum.map (fun q =>
        standardize_row (build_column_mapping columns) columns q.1 q.2)).enum,
        Row.get p.2 "Sales Rep" (RawCell.str ("Rep_" ++ pyNatStr p.1)) =
          RawCell.str ("Rep_" ++ pyNatStr p.1) := by
      intro p hp
      have hq := mem_enum_get? _ p hp
      rw [List.get?_map, enum_get?] at hq
      cases hdi : df.get? p.1 with
      | none => rw [hdi] at hq; cases hq
      | some row =>
        rw [hdi] at hq
        simp only [Option.map_some'] at hq
        have hp2 : p.2 = standardize_row (build_column_mapping columns)
            columns p.1 row := by
          injection hq with hq2
          exact hq2.symm
        rw [hp2]
        exact standardize_row_get_salesRep _ columns p.1 row _ hm
          (hdf row (List.get?_mem hdi))
    rw [process_named_rows _ h]
    constructor
    · rw [List.length_map, List.enum_length, List.length_map,
        List.enum_length]
    · intro i rec hrec
      rw [List.get?_map, enum_get?] at hrec
      cases hdi : (df.enum.map (fun q =>
          standardize_row (build_column_mapping columns) columns q.1
            q.2)).get? i with
      | none => rw [hdi] at hrec; cases hrec
      | some row =>
        rw [hdi] at hrec
        simp only [Option.map_some'] at hrec
        cases hrec
        exact ⟨rfl, repName_ne_empty i⟩

/-- C10 witness: a one-row table with only an unrecognized column yields
exactly one record, named `Rep_0`, on both paths. -/
theorem missing_name_fallback_witness :
    (process_standard_format [[("Foo", RawCell.num 1)]]).length = 1 ∧
      (process_custom_format ["Foo"] [[("Foo", RawCell.num 1)]]).length = 1 := by
  have h1 := missing_name_fallback.1 [[("Foo", RawCell.num 1)]]
    (by intro row hrow; simp at hrow; rw [hrow]; decide)
  have h2 := missing_name_fallback.2 ["Foo"] [[("Foo", RawCell.num 1)]]
    (by decide)
    (by intro row hrow; simp at hrow; rw [hrow]; decide)
  exact ⟨h1.1, h2.1⟩

/-- On a bucket with a present appointment count, the leaderboard loop
body evaluates to the spec's pool entry. -/
theorem categoryEntry_of_wf (cat : String) (rep : RepRecord)
    (b : BucketMetrics) (a : ℚ) (hl : lookupCat rep cat = some b)
    (ha : b.appointments = some a) :
    categoryEntry cat rep = Except.ok (leadEntry cat rep) := by
  simp only [categoryEntry, getCat, hl, exceptBind_ok, ha, leadEntry]
  cases hc : b.closeRate with
  | none =>
    by_cases h3 : 3 ≤ a <;> simp [h3, exceptPure_eq_ok]
  | some c =>
    by_cases h3 : 3 ≤ a <;> by_cases h0 : 0 < c <;>
      simp [h3, h0, exceptPure_eq_ok]

/-- Collecting the non-`none` images is a filterMap. -/
theorem reduceOption_map {α β : Type} (f : α → Option β) (l : List α) :
    (l.map f).reduceOption = l.filterMap f := by
  simp only [List.reduceOption, List.filterMap_map]
  rfl

/-- One fully-populated concrete rep (bucket `0-4` score 70). -/
def repA70 : RepRecord :=
  { name := "A", totalAppts := some 3, overallClose := some 50,
    overallCapture := some 100,
    categories := [("0-4", ⟨some 3, some 50, some 100⟩),
      ("5-9", ⟨some 0, none, none⟩), ("10-17", ⟨some 0, none, none⟩),
      ("18-25", ⟨some 0, none, none⟩), ("26+", ⟨some 0, none, none⟩)] }

/-- One fully-populated concrete rep (bucket `0-4` score 85). -/
def repB85 : RepRecord :=
  { name := "B", totalAppts := some 3, overallClose := some 75,
    overallCapture := some 100,
    categories := [("0-4", ⟨some 3, some 75, some 100⟩),
      ("5-9", ⟨some 0, none, none⟩), ("10-17", ⟨some 0, none, none⟩),
      ("18-25", ⟨some 0, none, none⟩), ("26+", ⟨some 0, none, none⟩)] }

/-- One fully-populated concrete rep (bucket `0-4` score 60). -/
def repC60 : RepRecord :=
  { name := "C", totalAppts := some 3, overallClose := some 100,
    overallCapture := some 0,
    categories := [("0-4", ⟨some 3, some 100, some 0⟩),
      ("5-9", ⟨some 0, none, none⟩), ("10-17", ⟨some 0, none, none⟩),
      ("18-25", ⟨some 0, none, none⟩), ("26+", ⟨some 0, none, none⟩)] }

/-- C8: for every bucket and record set (with present bucket
appointment counts), the per-bucket leader is an arg-max of
`bucketScore = closeRate*0.6 + min(captureRate or 0, 150)*0.4` over
exactly the reps whose bucket has `appointments >= 3` and a present
`closeRate > 0` (and there is no leader exactly when no rep qualifies);
concretely, of three reps with bucket `0-4` scores 70, 85 and 60, the
leader is the rep scoring 85. -/
theorem category_leader_argmax :
    (∀ (data : List RepRecord) (cat : String),
        (∀ r ∈ data, ∃ b a, lookupCat r cat = some b ∧
          b.appointments = some a) →
        ∃ out, categoryLeader data cat = Except.ok out ∧
          (out = none ↔ specLeaderPool data cat = []) ∧
          ∀ l, out = some l → ∃ s, (l, s) ∈ specLeaderPool data cat ∧
            ∀ p ∈ specLeaderPool data cat, p.2 ≤ s) ∧
      categoryLeader [repA70, repB85, repC60] "0-4" =
        Except.ok (some repB85) := by
  constructor
  · intro data cat hwf
    have hent : mapExcept (categoryEntry cat) data =
        Except.ok (data.map (leadEntry cat)) := by
      refine mapExcept_ok_of _ _ data (fun r hr => ?_)
      obtain ⟨b, a, hl, ha⟩ := hwf r hr
      exact categoryEntry_of_wf cat r b a hl ha
    have hpool : (data.map (leadEntry cat)).reduceOption =
        specLeaderPool data cat := reduceOption_map _ _
    simp only [categoryLeader, hent, exceptBind_ok, hpool]
    cases hp : specLeaderPool data cat with
    | nil =>
      refine ⟨none, rfl, by simp, ?_⟩
      intro l hl
      cases hl
    | cons e rest =>
      refine ⟨some ((maxBySnd e rest).1), rfl, by simp, ?_⟩
      intro l hl
      injection hl with hl2
      refine ⟨(maxBySnd e rest).2, ?_, ?_⟩
      · rw [← hl2, Prod.mk.eta]
        rcases maxBySnd_mem e rest with h | h
        · rw [h]; exact List.mem_cons_self e rest
        · exact List.mem_cons_of_mem e h
      · intro p hp2
        rcases List.mem_cons.mp hp2 with rfl | h
        · exact maxBySnd_ge_best p rest
        · exact maxBySnd_ge_mem e rest p h
  · norm_num [categoryLeader, mapExcept, categoryEntry, getCat, lookupCat,
      repA70, repB85, repC60, List.find?, exceptBind_ok, exceptPure_eq_ok,
      orZero, maxBySnd, min_def]

/-- C8 witness: the general arg-max statement instantiated at the
concrete three-rep data set for bucket `0-4`. -/
theorem category_leader_argmax_witness :
    ∃ out, categoryLeader [repA70, repB85, repC60] "0-4" = Except.ok out ∧
      (out = none ↔ specLeaderPool [repA70, repB85, repC60] "0-4" = []) ∧
      ∀ l, out = some l →
        ∃ s, (l, s) ∈ specLeaderPool [repA70, repB85, repC60] "0-4" ∧
          ∀ p ∈ specLeaderPool [repA70, repB85, repC60] "0-4", p.2 ≤ s :=
  category_leader_argmax.1 [repA70, repB85, repC60] "0-4" (by
    intro r hr
    simp only [List.mem_cons, List.not_mem_nil, or_false] at hr
    rcases hr with rfl | rfl | rfl
    · exact ⟨⟨some 3, some 50, some 100⟩, 3, by decide, rfl⟩
    · exact ⟨⟨some 3, some 75, some 100⟩, 3, by decide, rfl⟩
    · exact ⟨⟨some 3, some 100, some 0⟩, 3, by decide, rfl⟩)

/-- A non-empty qualifying set has positive total weight (each
qualifying bucket has at least 2 appointments). -/
theorem specWeight_pos (bs : List BucketMetrics)
    (h : specValidBuckets bs ≠ []) : 0 < specWeight bs := by
  apply List.sum_pos
  · intro x hx
    obtain ⟨b, hb, rfl⟩ := List.mem_map.mp hx
    have hv := List.of_mem_filter hb
    unfold specBucketValid at hv
    cases ha : b.appointments with
    | none => rw [ha] at hv; simp at hv
    | some a =>
      cases hc : b.closeRate with
      | none => rw [ha, hc] at hv; simp at hv
      | some c =>
        rw [ha, hc] at hv
        simp only [Bool.and_eq_true, decide_eq_true_eq] at hv
        simp only [orZero, ha]
        linarith [hv.1]
  · intro hmap
    exact h (List.map_eq_nil.mp hmap)

/-- The code's guarded close average equals the spec's average. -/
theorem code_avgClose_eq_spec (bs : List BucketMetrics) :
    (if 0 < specWeight bs then
        ((specValidBuckets bs).map
          (fun b => orZero b.closeRate * orZero b.appointments)).sum /
          specWeight bs
      else 0) = specAvgCategoryClose bs := by
  unfold specAvgCategoryClose
  by_cases h : specValidBuckets bs = []
  · rw [if_pos h]
    rw [show specWeight bs = 0 by simp [specWeight, h]]
    simp
  · rw [if_pos (specWeight_pos bs h), if_neg h]

/-- The code's guarded capture average equals the spec's average. -/
theorem code_avgCapture_eq_spec (bs : List BucketMetrics) :
    (if 0 < specWeight bs then
        ((specValidBuckets bs).map
          (fun b => orZero b.captureRate * orZero b.appointments)).sum /
          specWeight bs
      else 0) = specAvgCategoryCapture bs := by
  unfold specAvgCategoryCapture
  by_cases h : specValidBuckets bs = []
  · rw [if_pos h]
    rw [show specWeight bs = 0 by simp [specWeight, h]]
    simp
  · rw [if_pos (specWeight_pos bs h), if_neg h]

/-- On a bucket with a present appointment count, the scorer's loop body
evaluates to the spec's qualification test and collected triple. -/
theorem validCategoryEntry_of_wf (rep : RepRecord) (cat : String)
    (b : BucketMetrics) (a : ℚ) (hl : lookupCat rep cat = some b)
    (ha : b.appointments = some a) :
    validCategoryEntry rep cat = Except.ok
      (if specBucketValid b then
        some (orZero b.appointments, orZero b.closeRate, orZero b.captureRate)
      else none) := by
  simp only [validCategoryEntry, getCat, hl, exceptBind_ok, ha]
  cases hc : b.closeRate with
  | none =>
    by_cases h2 : 2 ≤ a <;>
      simp [specBucketValid, ha, hc, h2, exceptPure_eq_ok]
  | some c =>
    by_cases h2 : 2 ≤ a <;> by_cases h0 : 0 < c <;>
      simp [specBucketValid, ha, hc, h2, h0, orZero, exceptPure_eq_ok]

/-- Raw form of the close-average bridge. -/
theorem code_avgClose_eq_spec2 (bs : List BucketMetrics) :
    (if 0 < ((bs.filter specBucketValid).map
          (fun b => orZero b.appointments)).sum then
        ((bs.filter specBucketValid).map
          (fun b => orZero b.closeRate * orZero b.appointments)).sum /
          ((bs.filter specBucketValid).map
            (fun b => orZero b.appointments)).sum
      else 0) = specAvgCategoryClose bs :=
  code_avgClose_eq_spec bs

/-- Raw form of the capture-average bridge. -/
theorem code_avgCapture_eq_spec2 (bs : List BucketMetrics) :
    (if 0 < ((bs.filter specBucketValid).map
          (fun b => orZero b.appointments)).sum then
        ((bs.filter specBucketValid).map
          (fun b => orZero b.captureRate * orZero b.appointments)).sum /
          ((bs.filter specBucketValid).map
            (fun b => orZero b.appointments)).sum
      else 0) = specAvgCategoryCapture bs :=
  code_avgCapture_eq_spec bs

/-- The claim's synthetic rep: `overallCloseRate = 40` and all five
buckets valid with `closeRate = 40`, `captureRate = 100`,
`appointments = 10`. -/
def synthRep : RepRecord :=
  { name := "Synth", totalAppts := some 50, overallClose := some 40,
    overallCapture := some 100,
    categories := unit_categories.map
      (fun c => (c, ⟨some 10, some 40, some 100⟩)) }

/-- C1: for every record (in canonical five-bucket shape with present
appointment counts and a present overall close rate) the scoring engine
returns
`score = overallCloseRate*0.50 + avgCategoryCloseRate*0.15 +
min(avgCategoryCaptureRate, 150)*0.35`, where both averages are
appointment-weighted over exactly the buckets with `appointments >= 2`
and a present `closeRate > 0` (an absent capture rate contributes its
bucket's weight to the denominator but `0` to the capture numerator) and
both are `0` when no bucket qualifies; the claim's synthetic rep scores
exactly `61`. -/
theorem scoring_engine_formula :
    (∀ (nm : String) (ta ocap : Option ℚ) (oc : ℚ)
        (b0 b1 b2 b3 b4 : BucketMetrics),
        b0.appointments.isSome = true → b1.appointments.isSome = true →
        b2.appointments.isSome = true → b3.appointments.isSome = true →
        b4.appointments.isSome = true →
        calculate_performance_score
          { name := nm, totalAppts := ta, overallClose := some oc,
            overallCapture := ocap,
            categories := [("0-4", b0), ("5-9", b1), ("10-17", b2),
              ("18-25", b3), ("26+", b4)] } =
          Except.ok
            { name := nm,
              score := specScore oc [b0, b1, b2, b3, b4],
              overallClose := oc,
              avgCategoryClose := specAvgCategoryClose [b0, b1, b2, b3, b4],
              avgCategoryCapture :=
                specAvgCategoryCapture [b0, b1, b2, b3, b4],
              totalAppts := ta,
              validCategories :=
                (specValidBuckets [b0, b1, b2, b3, b4]).length,
              rawData :=
                { name := nm, totalAppts := ta, overallClose := some oc,
                  overallCapture := ocap,
                  categories := [("0-4", b0), ("5-9", b1), ("10-17", b2),
                    ("18-25", b3), ("26+", b4)] } }) ∧
      calculate_performance_score synthRep =
        Except.ok
          { name := "Synth", score := 61, overallClose := 40,
            avgCategoryClose := 40, avgCategoryCapture := 100,
            totalAppts := some 50, validCategories := 5,
            rawData := synthRep } := by
  constructor
  · intro nm ta ocap oc b0 b1 b2 b3 b4 h0 h1 h2 h3 h4
    obtain ⟨a0, ha0⟩ := Option.isSome_iff_exists.mp h0
    obtain ⟨a1, ha1⟩ := Option.isSome_iff_exists.mp h1
    obtain ⟨a2, ha2⟩ := Option.isSome_iff_exists.mp h2
    obtain ⟨a3, ha3⟩ := Option.isSome_iff_exists.mp h3
    obtain ⟨a4, ha4⟩ := Option.isSome_iff_exists.mp h4
    set R : RepRecord :=
      { name := nm, totalAppts := ta, overallClose := some oc,
        overallCapture := ocap,
        categories := [("0-4", b0), ("5-9", b1), ("10-17", b2),
          ("18-25", b3), ("26+", b4)] } with hR
    have he0 := validCategoryEntry_of_wf R "0-4" b0 a0 (by rw [hR]; rfl) ha0
    have he1 := validCategoryEntry_of_wf R "5-9" b1 a1 (by rw [hR]; rfl) ha1
    have he2 := validCategoryEntry_of_wf R "10-17" b2 a2 (by rw [hR]; rfl) ha2
    have he3 := validCategoryEntry_of_wf R "18-25" b3 a3 (by rw [hR]; rfl) ha3
    have he4 := validCategoryEntry_of_wf R "26+" b4 a4 (by rw [hR]; rfl) ha4
    have hmap : mapExcept (validCategoryEntry R) unit_categories =
        Except.ok ([b0, b1, b2, b3, b4].map (fun b =>
          if specBucketValid b then
            some (orZero b.appointments, orZero b.closeRate,
              orZero b.captureRate)
          else none)) := by
      simp only [unit_categories, mapExcept, he0, he1, he2, he3, he4,
        exceptBind_ok, exceptPure_eq_ok, List.map_cons, List.map_nil]
    have hoc : R.overallClose = some oc := by rw [hR]
    simp only [calculate_performance_score, hmap, exceptBind_ok,
      reduceOption_map_ite, exceptPure_eq_ok, List.map_map, hoc,
      List.length_map, Except.ok.injEq, ScoredRep.mk.injEq]
    simp only [Function.comp_def]
    refine ⟨trivial, ?_, trivial, ?_, ?_, trivial, rfl, trivial⟩
    · rw [code_avgClose_eq_spec2 [b0, b1, b2, b3, b4],
        code_avgCapture_eq_spec2 [b0, b1, b2, b3, b4]]
      rfl
    · exact code_avgClose_eq_spec2 [b0, b1, b2, b3, b4]
    · exact code_avgCapture_eq_spec2 [b0, b1, b2, b3, b4]
  · norm_num +decide [calculate_performance_score, synthRep, unit_categories,
      mapExcept, validCategoryEntry, getCat, lookupCat, List.find?,
      exceptBind_ok, exceptPure_eq_ok, orZero, min_def]

/-- C1 witness: the general scoring formula instantiated at a concrete
five-bucket record. -/
theorem scoring_engine_formula_witness :
    calculate_performance_score
      { name := "W", totalAppts := some 50, overallClose := some 40,
        overallCapture := some 100,
        categories := [("0-4", ⟨some 10, some 40, some 100⟩),
          ("5-9", ⟨some 10, some 40, some 100⟩),
          ("10-17", ⟨some 10, some 40, some 100⟩),
          ("18-25", ⟨some 10, some 40, some 100⟩),
          ("26+", ⟨some 10, some 40, some 100⟩)] } =
      Except.ok
        { name := "W",
          score := specScore 40
            [⟨some 10, some 40, some 100⟩, ⟨some 10, some 40, some 100⟩,
              ⟨some 10, some 40, some 100⟩, ⟨some 10, some 40, some 100⟩,
              ⟨some 10, some 40, some 100⟩],
          overallClose := 40,
          avgCategoryClose := specAvgCategoryClose
            [⟨some 10, some 40, some 100⟩, ⟨some 10, some 40, some 100⟩,
              ⟨some 10, some 40, some 100⟩, ⟨some 10, some 40, some 100⟩,
              ⟨some 10, some 40, some 100⟩],
          avgCategoryCapture := specAvgCategoryCapture
            [⟨some 10, some 40, some 100⟩, ⟨some 10, some 40, some 100⟩,
              ⟨some 10, some 40, some 100⟩, ⟨some 10, some 40, some 100⟩,
              ⟨some 10, some 40, some 100⟩],
          totalAppts := some 50,
          validCategories := (specValidBuckets
            [⟨some 10, some 40, some 100⟩, ⟨some 10, some 40, some 100⟩,
              ⟨some 10, some 40, some 100⟩, ⟨some 10, some 40, some 100⟩,
              ⟨some 10, some 40, some 100⟩]).length,
          rawData :=
            { name := "W", totalAppts := some 50, overallClose := some 40,
              overallCapture := some 100,
              categories := [("0-4", ⟨some 10, some 40, some 100⟩),
                ("5-9", ⟨some 10, some 40, some 100⟩),
                ("10-17", ⟨some 10, some 40, some 100⟩),
                ("18-25", ⟨some 10, some 40, some 100⟩),
                ("26+", ⟨some 10, some 40, some 100⟩)] } } :=
  scoring_engine_formula.1 "W" (some 50) (some 100) 40
    ⟨some 10, some 40, some 100⟩ ⟨some 10, some 40, some 100⟩
    ⟨some 10, some 40, some 100⟩ ⟨some 10, some 40, some 100⟩
    ⟨some 10, some 40, some 100⟩ rfl rfl rfl rfl rfl

/-- The overall-capture key contains neither `Close` nor an `Appts`
suffix but does contain `Capture`, so `safe_get` always resolves it to a
number (never `None`). -/
theorem safe_get_capture_isSome (row : Row) (d : ℚ) :
    (safe_get row "Units Captured on Sold Jobs %" d).isSome = true := by
  have h1 : keyIsApptsKey "Units Captured on Sold Jobs %" = false := by decide
  have h2 : keyHasClose "Units Captured on Sold Jobs %" = false := by decide
  have h3 : keyHasCapture "Units Captured on Sold Jobs %" = true := by decide
  have hfb : safeGetFallback "Units Captured on Sold Jobs %" d = some d := by
    unfold safeGetFallback
    rw [h1, h2]
    simp
  unfold safe_get
  rw [h2, h3, hfb]
  simp only [Bool.false_or, if_true]
  by_cases hnv : isNoValueCell
      (row.get "Units Captured on Sold Jobs %" (RawCell.num d)) = true
  · simp [hnv]
  · simp only [hnv, if_false]
    cases hf : pyFloatCell
        (row.get "Units Captured on Sold Jobs %" (RawCell.num d)) <;>
      simp [hnv, hf]

/-- A row whose overall close cell resolves to `None` makes the
dashboard's row conversion raise. -/
theorem convertExcelRow_error_of_none (row : Row)
    (h : safe_get row "Overall Close %" 0 = none) :
    convertExcelRow row =
      Except.error "TypeError: NoneType is not orderable" := by
  unfold convertExcelRow
  rw [h]
  rfl

/-- A row whose overall close cell resolves to a number converts. -/
theorem convertExcelRow_ok_of_some (row : Row)
    (h : (safe_get row "Overall Close %" 0).isSome = true) :
    ∃ rec, convertExcelRow row = Except.ok rec := by
  obtain ⟨q, hq⟩ := Option.isSome_iff_exists.mp h
  obtain ⟨k, hk⟩ := Option.isSome_iff_exists.mp
    (safe_get_capture_isSome row 0)
  unfold convertExcelRow
  rw [hq, hk]
  exact ⟨_, rfl⟩

/-- C4 (amended): the converter's normalizer drops rows only by the name
rule — with no skipped names it emits one record per row — while the
dashboard's `convert_excel_to_sales_data` has no per-row handler: one
row whose `Overall Close %` cell coerces to `None` (blank, `'-'` or NaN)
raises a `TypeError` that aborts the whole batch, discarding every other
row. -/
theorem batch_abort_on_bad_close :
    (∀ (df1 df2 : List Row) (row : Row),
        (∀ r ∈ df1, (safe_get r "Overall Close %" 0).isSome = true) →
        safe_get row "Overall Close %" 0 = none →
        convert_excel_to_sales_data (df1 ++ row :: df2) =
          Except.error "TypeError: NoneType is not orderable") ∧
      (∀ df : List Row,
        (∀ p ∈ df.enum, nameSkipped (standardRowName p.1 p.2) = false) →
        (process_standard_format df).length = df.length) := by
  constructor
  · intro df1
    induction df1 with
    | nil =>
      intro df2 row _ hbad
      show mapExcept convertExcelRow (row :: df2) = _
      simp only [mapExcept, convertExcelRow_error_of_none row hbad,
        exceptBind_error]
    | cons r rs ih =>
      intro df2 row hgood hbad
      obtain ⟨rec, hrec⟩ := convertExcelRow_ok_of_some r
        (hgood r (List.mem_cons_self r rs))
      show mapExcept convertExcelRow (r :: (rs ++ row :: df2)) = _
      have hrest := ih df2 row
        (fun x hx => hgood x (List.mem_cons_of_mem r hx)) hbad
      simp only [mapExcept, hrec, exceptBind_ok]
      rw [show mapExcept convertExcelRow (rs ++ row :: df2) =
        Except.error "TypeError: NoneType is not orderable" from hrest]
      rfl
  · intro df hns
    unfold process_standard_format
    rw [filterMap_eq_map_of _
      (fun p => buildStandardRecord p.2 (standardRowName p.1 p.2)) df.enum
      (fun p hp => by
        simp only [processStandardRow, hns p hp, Bool.false_eq_true,
          if_false])]
    rw [List.length_map, List.enum_length]

/-- C4 witness: the amended statement applied to a concrete batch. -/
theorem batch_abort_on_bad_close_witness :
    convert_excel_to_sales_data
      [[("Sales Rep", RawCell.str "G"), ("Overall Close %", RawCell.num 40)],
        [("Sales Rep", RawCell.str "B"), ("Overall Close %", RawCell.str "-")],
        [("Sales Rep", RawCell.str "H"), ("Overall Close %", RawCell.num 50)]] =
      Except.error "TypeError: NoneType is not orderable" :=
  batch_abort_on_bad_close.1
    [[("Sales Rep", RawCell.str "G"), ("Overall Close %", RawCell.num 40)]]
    [[("Sales Rep", RawCell.str "H"), ("Overall Close %", RawCell.num 50)]]
    [("Sales Rep", RawCell.str "B"), ("Overall Close %", RawCell.str "-")]
    (by intro r hr; simp only [List.mem_singleton] at hr; rw [hr]; decide)
    (by decide)

/-- C4 (counterexample): on a three-row table whose middle row has a
blank overall close cell, the dashboard conversion aborts the whole
batch with a `TypeError` (no record survives), while the converter's
normalizer keeps all three rows — refuting the claim that in both entry
points a processing error is absorbed by skipping only the offending
row. -/
theorem per_row_error_handling_cex :
    convert_excel_to_sales_data
      [[("Sales Rep", RawCell.str "G"), ("Overall Close %", RawCell.num 40)],
        [("Sales Rep", RawCell.str "B"), ("Overall Close %", RawCell.str "-")],
        [("Sales Rep", RawCell.str "H"), ("Overall Close %", RawCell.num 50)]] =
        Except.error "TypeError: NoneType is not orderable" ∧
      (process_standard_format
        [[("Sales Rep", RawCell.str "G"), ("Overall Close %", RawCell.num 40)],
          [("Sales Rep", RawCell.str "B"),
            ("Overall Close %", RawCell.str "-")],
          [("Sales Rep", RawCell.str "H"),
            ("Overall Close %", RawCell.num 50)]]).length = 3 := by
  constructor
  · norm_num +decide [convert_excel_to_sales_data, mapExcept, convertExcelRow,
      safe_get, safeGetFallback, isNoValueCell, pyFloatCell, pyIntCell,
      pyScalePct, rescaleFrac, Row.get, List.find?, exceptBind_ok,
      exceptBind_error, exceptPure_eq_ok, unit_categories]
  · decide

/-- Parameters of a fully-populated "canonical" standard-format row: a
name cell and numeric cells for every overall and bucket column. -/
structure CanonRow where
  nm : String
  ta : ℚ
  oc : ℚ
  ocap : ℚ
  b0 : ℚ × ℚ × ℚ
  b1 : ℚ × ℚ × ℚ
  b2 : ℚ × ℚ × ℚ
  b3 : ℚ × ℚ × ℚ
  b4 : ℚ × ℚ × ℚ

/-- The canonical standard-format row for the given parameters. -/
def canonRow (v : CanonRow) : Row :=
  [("Sales Rep", RawCell.str v.nm),
   ("Issued Appts", RawCell.num v.ta),
   ("Overall Close %", RawCell.num v.oc),
   ("Units Captured on Sold Jobs %", RawCell.num v.ocap),
   ("(0-4) Issued Appts", RawCell.num v.b0.1),
   ("(0-4) Overall Close %", RawCell.num v.b0.2.1),
   ("(0-4) Units Captured on Sold Jobs %", RawCell.num v.b0.2.2),
   ("(5-9) Issued Appts", RawCell.num v.b1.1),
   ("(5-9) Overall Close %", RawCell.num v.b1.2.1),
   ("(5-9) Units Captured on Sold Jobs %", RawCell.num v.b1.2.2),
   ("(10-17) Issued Appts", RawCell.num v.b2.1),
   ("(10-17) Overall Close %", RawCell.num v.b2.2.1),
   ("(10-17) Units Captured on Sold Jobs %", RawCell.num v.b2.2.2),
   ("(18-25) Issued Appts", RawCell.num v.b3.1),
   ("(18-25) Overall Close %", RawCell.num v.b3.2.1),
   ("(18-25) Units Captured on Sold Jobs %", RawCell.num v.b3.2.2),
   ("(26+) Issued Appts", RawCell.num v.b4.1),
   ("(26+) Overall Close %", RawCell.num v.b4.2.1),
   ("(26+) Units Captured on Sold Jobs %", RawCell.num v.b4.2.2)]

/-- The record both conversion paths produce from a canonical row. -/
def canonRecord (v : CanonRow) : RepRecord :=
  { name := v.nm, totalAppts := some v.ta,
    overallClose := some (pctAdjust true v.oc),
    overallCapture := some (pctAdjust true v.ocap),
    categories :=
      [("0-4", ⟨some v.b0.1, some (pctAdjust true v.b0.2.1),
          some (pctAdjust true v.b0.2.2)⟩),
        ("5-9", ⟨some v.b1.1, some (pctAdjust true v.b1.2.1),
          some (pctAdjust true v.b1.2.2)⟩),
        ("10-17", ⟨some v.b2.1, some (pctAdjust true v.b2.2.1),
          some (pctAdjust true v.b2.2.2)⟩),
        ("18-25", ⟨some v.b3.1, some (pctAdjust true v.b3.2.1),
          some (pctAdjust true v.b3.2.2)⟩),
        ("26+", ⟨some v.b4.1, some (pctAdjust true v.b4.2.1),
          some (pctAdjust true v.b4.2.2)⟩)] }

/-- The converter builds exactly the canonical record from a canonical
row. -/
theorem buildStandardRecord_canon (v : CanonRow) :
    buildStandardRecord (canonRow v) v.nm = canonRecord v := rfl

/-- The dashboard's inline rescale computes the converter's adjustment. -/
theorem pctAdjust_true (q : ℚ) :
    (if q ≤ 1 then q * 100 else q) = pctAdjust true q := by
  simp [pctAdjust]

/-- The dashboard's guarded bucket rescale computes the converter's
adjustment on present values. -/
theorem rescaleFrac_num (q : ℚ) :
    rescaleFrac (some q) = some (pctAdjust true q) := by
  show (if q ≤ 1 then some (q * 100) else some q) = _
  split_ifs with h <;> simp [pctAdjust, h]

/-- Truncation is the identity on integral rationals. -/
theorem pyTrunc_den_one (q : ℚ) (h : q.den = 1) :
    ((pyTrunc q : ℤ) : ℚ) = q := by
  have hq : (q.num : ℚ) = q := by
    conv_rhs => rw [← Rat.num_div_den q]
    rw [h]
    simp
  unfold pyTrunc
  split_ifs with hpos
  · rw [← hq, Int.floor_intCast]
  · rw [← hq, Int.ceil_intCast]

/-- On a canonical row with integral appointment cells, the dashboard
row conversion also yields the canonical record. -/
theorem convertExcelRow_canon (v : CanonRow) (hta : v.ta.den = 1)
    (hb0 : v.b0.1.den = 1) (hb1 : v.b1.1.den = 1) (hb2 : v.b2.1.den = 1)
    (hb3 : v.b3.1.den = 1) (hb4 : v.b4.1.den = 1) :
    convertExcelRow (canonRow v) = Except.ok (canonRecord v) := by
  have e : convertExcelRow (canonRow v) = Except.ok
      { name := v.nm,
        totalAppts := some ((pyTrunc v.ta : ℤ) : ℚ),
        overallClose := some (if v.oc ≤ 1 then v.oc * 100 else v.oc),
        overallCapture :=
          some (if v.ocap ≤ 1 then v.ocap * 100 else v.ocap),
        categories :=
          [("0-4", ⟨some ((pyTrunc v.b0.1 : ℤ) : ℚ),
              rescaleFrac (some v.b0.2.1), rescaleFrac (some v.b0.2.2)⟩),
            ("5-9", ⟨some ((pyTrunc v.b1.1 : ℤ) : ℚ),
              rescaleFrac (some v.b1.2.1), rescaleFrac (some v.b1.2.2)⟩),
            ("10-17", ⟨some ((pyTrunc v.b2.1 : ℤ) : ℚ),
              rescaleFrac (some v.b2.2.1), rescaleFrac (some v.b2.2.2)⟩),
            ("18-25", ⟨some ((pyTrunc v.b3.1 : ℤ) : ℚ),
              rescaleFrac (some v.b3.2.1), rescaleFrac (some v.b3.2.2)⟩),
            ("26+", ⟨some ((pyTrunc v.b4.1 : ℤ) : ℚ),
              rescaleFrac (some v.b4.2.1), rescaleFrac (some v.b4.2.2)⟩)] } :=
    rfl
  rw [e]
  unfold canonRecord
  simp only [Except.ok.injEq, RepRecord.mk.injEq, pctAdjust_true,
    rescaleFrac_num, pyTrunc_den_one _ hta, pyTrunc_den_one _ hb0,
    pyTrunc_den_one _ hb1, pyTrunc_den_one _ hb2, pyTrunc_den_one _ hb3,
    pyTrunc_den_one _ hb4, List.cons.injEq, Prod.mk.injEq,
    BucketMetrics.mk.injEq, and_self]

/-- The conditions under which the two conversion paths agree on a
canonical row: a clean, non-sentinel name and integral appointment
cells. -/
def CanonRowGood (v : CanonRow) : Prop :=
  pyStrip v.nm = v.nm ∧ nameSkipped v.nm = false ∧ v.ta.den = 1 ∧
    v.b0.1.den = 1 ∧ v.b1.1.den = 1 ∧ v.b2.1.den = 1 ∧ v.b3.1.den = 1 ∧
    v.b4.1.den = 1

/-- On a canonical row with a good name the converter keeps the row. -/
theorem processStandardRow_canon (v : CanonRow) (i : Nat)
    (hnm : pyStrip v.nm = v.nm) (hns : nameSkipped v.nm = false) :
    processStandardRow i (canonRow v) = some (canonRecord v) := by
  have hname : standardRowName i (canonRow v) = v.nm := hnm
  simp only [processStandardRow, hname, hns, Bool.false_eq_true, if_false,
    buildStandardRecord_canon]

/-- The converter's pass over canonical rows, for any start index. -/
theorem process_canon_enumFrom :
    ∀ (vs : List CanonRow), (∀ v ∈ vs, CanonRowGood v) → ∀ n : Nat,
      ((vs.map canonRow).enumFrom n).filterMap
        (fun p => processStandardRow p.1 p.2) = vs.map canonRecord
  | [], _, _ => rfl
  | v :: vt, h, n => by
    obtain ⟨hnm, hns, -⟩ := h v (List.mem_cons_self v vt)
    simp only [List.map_cons, List.enumFrom, List.filterMap_cons,
      processStandardRow_canon v n hnm hns,
      process_canon_enumFrom vt
        (fun w hw => h w (List.mem_cons_of_mem v hw)) (n + 1)]

/-- The dashboard's pass over canonical rows. -/
theorem dash_canon :
    ∀ (vs : List CanonRow), (∀ v ∈ vs, CanonRowGood v) →
      mapExcept convertExcelRow (vs.map canonRow) =
        Except.ok (vs.map canonRecord)
  | [], _ => rfl
  | v :: vt, h => by
    obtain ⟨-, -, hta, hb0, hb1, hb2, hb3, hb4⟩ :=
      h v (List.mem_cons_self v vt)
    simp only [List.map_cons, mapExcept,
      convertExcelRow_canon v hta hb0 hb1 hb2 hb3 hb4, exceptBind_ok,
      dash_canon vt (fun w hw => h w (List.mem_cons_of_mem v hw))]
    rfl

/-- C3 (amended): the two conversion implementations are NOT
field-for-field equal in general; they agree exactly on the benign
fragment — for every table of canonical standard-format rows whose name
cells are clean non-sentinel strings and whose appointment cells are
integral numerics, the dashboard conversion succeeds with exactly the
converter's record list. -/
theorem conversions_agree_on_canonical (vs : List CanonRow)
    (h : ∀ v ∈ vs, CanonRowGood v) :
    convert_excel_to_sales_data (vs.map canonRow) =
      Except.ok (process_standard_format (vs.map canonRow)) := by
  have h2 : process_standard_format (vs.map canonRow) =
      vs.map canonRecord := by
    unfold process_standard_format
    exact process_canon_enumFrom vs h 0
  rw [h2]
  exact dash_canon vs h

/-- C3 (counterexample): on a one-row table whose `(0-4)` capture cell
is the dash placeholder, the converter stores an absent capture rate but
the dashboard stores `0` — the two implementations do not produce
field-for-field equal records. -/
theorem conversion_equivalence_cex :
    convert_excel_to_sales_data
        [[("Sales Rep", RawCell.str "B"),
          ("(0-4) Units Captured on Sold Jobs %", RawCell.str "-")]] ≠
      Except.ok (process_standard_format
        [[("Sales Rep", RawCell.str "B"),
          ("(0-4) Units Captured on Sold Jobs %", RawCell.str "-")]]) := by
  norm_num +decide [convert_excel_to_sales_data, mapExcept, convertExcelRow,
    safe_get, safeGetFallback, isNoValueCell, pyFloatCell, pyIntCell,
    rescaleFrac, pyScalePct, Row.get, List.find?, exceptBind_ok,
    exceptPure_eq_ok, process_standard_format, processStandardRow,
    standardRowName, nameSkipped, buildStandardRecord, pyStr, pyStrip,
    safe_convert_numeric, noValueResult, pctAdjust, cleanNumStr, removeChar,
    parseFloat, unit_categories, List.enum, List.enumFrom, pyLower,
    List.filterMap_cons, List.filterMap_nil]

/-- C3 witness: the agreement theorem applied to a concrete one-row
canonical table (all cells numeric, integral appointments). -/
theorem conversions_agree_on_canonical_witness :
    convert_excel_to_sales_data
        [canonRow ⟨"A", 25, 40, 100, (10, 40, 100), (10, 40, 100),
          (10, 40, 100), (10, 40, 100), (10, 40, 100)⟩] =
      Except.ok (process_standard_format
        [canonRow ⟨"A", 25, 40, 100, (10, 40, 100), (10, 40, 100),
          (10, 40, 100), (10, 40, 100), (10, 40, 100)⟩]) := by
  have h := conversions_agree_on_canonical
    [⟨"A", 25, 40, 100, (10, 40, 100), (10, 40, 100), (10, 40, 100),
      (10, 40, 100), (10, 40, 100)⟩]
    (by
      intro v hv
      simp only [List.mem_singleton] at hv
      rw [hv]
      refine ⟨by decide, by decide, ?_, ?_, ?_, ?_, ?_, ?_⟩ <;> rfl)
  simpa using h
